import Mathlib

/-!
Shallow embedding of the bot-2 conversation-turn engine: the credential /
model cascade, memory query, tool declarations, tool execution and turn
finalization of `chatWithGemini` (src/server/personality.ts), the chat API
route (src/server/index.ts), the model scorer `getModelScore`
(modelDiscovery), and the relevant tables from src/server/db.ts.

Numbers: the scorer multiplies a parsed decimal version token by 1000 and
adds small integer bonuses.  Such values are represented exactly as decimal
fractions `num / 10 ^ exp` over `Nat` (`Frac` below).  On the magnitudes
involved a JS double differs from the exact decimal value by far less than
the smallest nonzero gap between two distinct scores, so every comparison
proved below agrees with the JS float comparison.
-/

namespace Bot

/-- Characters matched by the JavaScript regex class `\s` (the same set is
trimmed by `String.prototype.trim`). -/
def jsWhitespace (c : Char) : Bool :=
  let n := c.toNat
  n == 9 || n == 10 || n == 11 || n == 12 || n == 13 || n == 32 ||
  n == 0xa0 || n == 0x1680 || (0x2000 ≤ n && n ≤ 0x200a) ||
  n == 0x2028 || n == 0x2029 || n == 0x202f || n == 0x205f ||
  n == 0x3000 || n == 0xfeff

/-- Does the second list start with the first one? -/
def startsWithSeq : List Char → List Char → Bool
  | [], _ => true
  | _ :: _, [] => false
  | a :: as, b :: bs => a == b && startsWithSeq as bs

/-- Substring test, the embedding of JavaScript `String.prototype.includes`. -/
def containsSeq (pat : List Char) : List Char → Bool
  | [] => startsWithSeq pat []
  | c :: rest => startsWithSeq pat (c :: rest) || containsSeq pat rest

/-- Embedding of `haystack.includes(needle)`. -/
def containsSub (s pat : String) : Bool := containsSeq pat.toList s.toList

/-- Embedding of `String.prototype.trim`. -/
def jsTrim (s : String) : String :=
  String.mk (((s.toList.dropWhile jsWhitespace).reverse.dropWhile jsWhitespace).reverse)

/-- ASCII embedding of `String.prototype.toLowerCase` (model names are ASCII). -/
def asciiLowerList (l : List Char) : List Char := l.map Char.toLower

/-- Lower-cased character list of a model name, as the scorer computes it. -/
def lowerOf (s : String) : List Char := asciiLowerList s.toList

/-- Exact decimal fraction `num / 10 ^ exp`, the value domain of the model
scorer (JS numbers restricted to the decimal arithmetic the scorer does). -/
structure Frac where
  num : Nat
  exp : Nat
deriving DecidableEq

/-- Adds a natural number to a decimal fraction. -/
def Frac.addNat (f : Frac) (k : Nat) : Frac := ⟨f.num + k * 10 ^ f.exp, f.exp⟩

/-- Less-or-equal on decimal fractions by cross multiplication. -/
def Frac.fle (a b : Frac) : Bool := decide (a.num * 10 ^ b.exp ≤ b.num * 10 ^ a.exp)

/-- Strict less-than on decimal fractions by cross multiplication. -/
def Frac.flt (a b : Frac) : Bool := decide (a.num * 10 ^ b.exp < b.num * 10 ^ a.exp)

/-- Rational value of a decimal fraction (used only to reason about orders). -/
def Frac.toRat (f : Frac) : ℚ := (f.num : ℚ) / (10 : ℚ) ^ f.exp

/-- Maximal digit run at the head of a character list, with the remainder. -/
def takeDigits : List Char → List Char × List Char
  | [] => ([], [])
  | c :: rest =>
    if c.isDigit then
      let p := takeDigits rest
      (c :: p.1, p.2)
    else ([], c :: rest)

/-- Numeric value of a digit run. -/
def natOfDigits (l : List Char) : Nat :=
  l.foldl (fun acc c => acc * 10 + (c.toNat - 48)) 0

def geminiDashChars : List Char := ['g', 'e', 'm', 'i', 'n', 'i', '-']

/-- Strips the first list from the head of the second, if it is there. -/
def dropStart : List Char → List Char → Option (List Char)
  | [], l => some l
  | _ :: _, [] => none
  | a :: as, b :: bs => if a == b then dropStart as bs else none

/-- Value of the capture group `(\d+(\.\d+)?)` matched at the head of `l`
(the text after a `gemini-` occurrence), as `parseFloat` reads it. -/
def versionTokenOf (l : List Char) : Option Frac :=
  match takeDigits l with
  | ([], _) => none
  | (ds, rest) =>
    match rest with
    | '.' :: rest2 =>
      (match takeDigits rest2 with
       | ([], _) => some ⟨natOfDigits ds, 0⟩
       | (fs, _) => some ⟨natOfDigits ds * 10 ^ fs.length + natOfDigits fs, fs.length⟩)
    | _ => some ⟨natOfDigits ds, 0⟩

/-- First match of the regex `/gemini-(\d+(\.\d+)?)/`: the earliest position
where `gemini-` is followed by at least one digit. -/
def findGeminiVersion : List Char → Option Frac
  | [] => none
  | c :: rest =>
    match dropStart geminiDashChars (c :: rest) with
    | some after =>
      (match versionTokenOf after with
       | some v => some v
       | none => findGeminiVersion rest)
    | none => findGeminiVersion rest

/-- Version part of the score: `parseFloat(vMatch[1]) * 1000` when the regex
matches, else 1000 for names containing `gemini-pro`, else 0. -/
def versionScore (lower : List Char) : Frac :=
  match findGeminiVersion lower with
  | some v => ⟨v.num * 1000, v.exp⟩
  | none =>
    if containsSeq "gemini-pro".toList lower then ⟨1000, 0⟩ else ⟨0, 0⟩

/-- Which branch of the tier `if`/`else if` chain of `getModelScore` fires. -/
inductive Tier
  | g3flash
  | g3
  | ultra
  | pro
  | flash
  | nano
  | standard
deriving DecidableEq

/-- Tier classification: the `if`/`else if` chain on substring tests. -/
def tierOf (lower : List Char) : Tier :=
  if containsSeq "gemini-3".toList lower && containsSeq "flash".toList lower then .g3flash
  else if containsSeq "gemini-3".toList lower then .g3
  else if containsSeq "ultra".toList lower then .ultra
  else if containsSeq "pro".toList lower then .pro
  else if containsSeq "flash".toList lower then .flash
  else if containsSeq "nano".toList lower then .nano
  else .standard

/-- Bonus added for each tier branch. -/
def tierBonus : Tier → Nat
  | .g3flash => 2000
  | .g3 => 60
  | .ultra => 50
  | .pro => 40
  | .flash => 30
  | .nano => 10
  | .standard => 20

/-- Modifier bonuses for preview / experimental / vision tags. -/
def modBonus (lower : List Char) : Nat :=
  (if containsSeq "preview".toList lower then 5 else 0) +
  (if containsSeq "experimental".toList lower then 1 else 0) +
  (if containsSeq "vision".toList lower then 2 else 0)

/-- Embedding of `getModelScore` (modelDiscovery): version value times 1000,
plus the tier bonus, plus the tag modifiers. -/
def getModelScore (name : String) : Frac :=
  ((versionScore (lowerOf name)).addNat (tierBonus (tierOf (lowerOf name)))).addNat
    (modBonus (lowerOf name))

/-! Data model: rows of the tables touched by a turn (db.ts). -/

/-- One entry of the new `available_models` format written by
`refreshKeyModels`: objects with a name and token limits. -/
structure MObj where
  name : String
  inputTokenLimit : Nat
  outputTokenLimit : Nat
deriving DecidableEq

/-- Parsed content of the `available_models` JSON column: the legacy string
array, the new object array, or text that fails to parse. -/
inductive AvailModels
  | strs (l : List String)
  | objs (l : List MObj)
  | malformed
deriving DecidableEq

/-- Row of `gemini_keys` (secret omitted; timestamps as naturals). -/
structure GKey where
  id : String
  user_id : String
  status : String
  last_used_at : Option Nat
  best_model : Option String
  available_models : Option AvailModels
deriving DecidableEq

/-- Row of `user_settings` (the columns the engine reads; NULL-able). -/
structure SettingsRow where
  user_id : String
  preferred_model : Option String
  enable_web_search : Option Int
  enable_weather : Option Int
  enable_calculator : Option Int
  enable_scraper : Option Int
  enable_github : Option Int
  enable_currency : Option Int
deriving DecidableEq

/-- Row of `user_memories`. -/
structure MemRow where
  user_id : String
  content : String
  memory_type : Option String
  platform : Option String
  external_id : Option String
  created_at : Nat
deriving DecidableEq

/-- Parsed content of a `parameter_schema` column: unparsable text or a JSON
object given by its key set (values are never inspected by the engine). -/
inductive SchemaJson
  | malformed
  | parsed (keys : List String)
deriving DecidableEq

/-- Row of `tools` (headers column omitted: never read by modeled paths). -/
structure ToolRow where
  id : String
  name : String
  endpoint : String
  description : String
  user_id : String
  is_active : Nat
  is_admin_only : Nat
  method : Option String
  parameter_schema : Option SchemaJson
  api_key : Option String
  auth_type : Option String
  auth_param_name : Option String
deriving DecidableEq

/-- Row of `chat_logs` (raw_response omitted: opaque provider JSON). -/
structure ChatRow where
  id : String
  user_id : String
  chat_id : String
  platform : String
  role : String
  content : String
  chat_type : String
  group_id : Option String
  sender_id : Option String
  sender_name : Option String
deriving DecidableEq

/-- Row of `bot_logs` (request/raw payload blobs omitted: opaque JSON). -/
structure BotRow where
  id : String
  response : String
  api_key_used : String
  user_id : String
  chat_id : String
  model_used : String
deriving DecidableEq

/-- Row of `platform_integrations` (only the column the engine reads). -/
structure IntegRow where
  user_id : String
  platform : String
  share_active_memory : Option Int
deriving DecidableEq

/-- Row of `platform_admins`. -/
structure AdminRow where
  user_id : String
  platform : String
  platform_user_id : String
deriving DecidableEq

/-- The database state a turn reads and writes.  `uuid_counter` stands in
for the uuid generator: fresh ids are drawn from it deterministically. -/
structure Db where
  gemini_keys : List GKey
  user_settings : List SettingsRow
  user_memories : List MemRow
  tools : List ToolRow
  chat_logs : List ChatRow
  bot_logs : List BotRow
  platform_integrations : List IntegRow
  platform_admins : List AdminRow
  uuid_counter : Nat
deriving DecidableEq

/-- Draws a fresh row id (stand-in for `uuidv4()`). -/
def genId (db : Db) : String × Db :=
  ("uuid-" ++ toString db.uuid_counter, { db with uuid_counter := db.uuid_counter + 1 })

/-! Credential pool and candidate cascade (`chatWithGemini`, steps 2 and the
model-selection logic). -/

/-- SQLite `ORDER BY last_used_at ASC`: NULLs sort first. -/
def optNatLe : Option Nat → Option Nat → Bool
  | none, _ => true
  | some _, none => false
  | some a, some b => decide (a ≤ b)

def luRel (a b : GKey) : Prop := optNatLe a.last_used_at b.last_used_at = true

instance : DecidableRel luRel := fun a b => by unfold luRel; infer_instance

/-- The keys the engine loads: active keys of the tenant, ascending
last-used (`SELECT * FROM gemini_keys ... ORDER BY last_used_at ASC`). -/
def activeKeysFor (db : Db) (userId : String) : List GKey :=
  List.insertionSort luRel
    (db.gemini_keys.filter (fun k => k.user_id == userId && k.status == "active"))

/-- Score of a key: `a.best_model ? getModelScore(a.best_model) : 0`. -/
def scoreOfKey (k : GKey) : Frac :=
  match k.best_model with
  | some b => if b == "" then ⟨0, 0⟩ else getModelScore b
  | none => ⟨0, 0⟩

def scoreDescRel (a b : GKey) : Prop := (scoreOfKey b).fle (scoreOfKey a) = true

instance : DecidableRel scoreDescRel := fun a b => by unfold scoreDescRel; infer_instance

/-- Automatic-mode key ordering: stable sort by best-model score descending
(`keys.sort((a, b) => scoreB - scoreA)`; JS `Array.sort` is stable). -/
def autoSortKeys (keys : List GKey) : List GKey := List.insertionSort scoreDescRel keys

/-- The preferred-model filter on one key: parse `available_models` and test
`models.includes(preferredModel)`.  On the new object format `includes`
compares objects against a string and never matches. -/
def keySupportsPref (k : GKey) (m : String) : Bool :=
  match k.available_models with
  | some (.strs l) => l.contains m
  | _ => false

/-- Model-selection logic: returns the key order to attempt and the target
model (`'auto'` after fallback).  With a non-auto preferred model the
capable keys keep their ascending last-used order; in automatic mode keys
are re-sorted by best-model score descending. -/
def selectKeys (keys : List GKey) (preferredModel : String) : List GKey × String :=
  if preferredModel == "auto" then (autoSortKeys keys, "auto")
  else
    let capable := keys.filter (fun k => keySupportsPref k preferredModel)
    if capable.length > 0 then (capable, preferredModel)
    else (autoSortKeys keys, "auto")

def modelScoreDescRel (a b : String) : Prop := (getModelScore b).fle (getModelScore a) = true

instance : DecidableRel modelScoreDescRel := fun a b => by
  unfold modelScoreDescRel; infer_instance

/-- Stable sort of a model list by score descending. -/
def sortModelsByScore (l : List String) : List String :=
  List.insertionSort modelScoreDescRel l

/-- Hardcoded fallback list used when a key has no discovery data. -/
def defaultFallbackModels : List String :=
  ["gemini-3.0-flash-preview", "gemini-2.0-flash-exp", "gemini-1.5-pro", "gemini-1.5-flash"]

/-- Per-key candidate model list: preferred model first (when a non-auto
target), then in auto mode the cached best model, then the discovered list
sorted by score descending with duplicates skipped, then hardcoded
fallbacks if still empty. -/
def candidatesFor (k : GKey) (preferredModel targetModel : String) : List String :=
  let c0 : List String :=
    if preferredModel != "auto" && targetModel != "auto" then [preferredModel] else []
  let c1 : List String :=
    c0 ++ (if targetModel == "auto" then
            (match k.best_model with
             | some b => if b == "" then [] else [b]
             | none => [])
           else [])
  let keyModels : List String :=
    match k.available_models with
    | none => defaultFallbackModels
    | some (.strs l) => sortModelsByScore l
    | some (.objs l) => sortModelsByScore (l.map MObj.name)
    | some .malformed => []
  let cands := keyModels.foldl (fun acc m => if acc.contains m then acc else acc ++ [m]) c1
  if cands.isEmpty then ["gemini-3.0-flash-preview", "gemini-1.5-flash"] else cands

/-- The full candidate cascade of a turn: for each key in attempt order,
its candidate models in attempt order. -/
def cascadePlan (keys : List GKey) (preferredModel : String) : List (GKey × String) :=
  let sel := selectKeys keys preferredModel
  sel.1.flatMap (fun k => (candidatesFor k preferredModel sel.2).map (fun m => (k, m)))

/-- JS `a || b` on a nullable string: empty strings are falsy. -/
def jsOrStr (v : Option String) (dflt : String) : String :=
  match v with
  | some s => if s == "" then dflt else s
  | none => dflt

/-- First settings row of the tenant (`SELECT * ... WHERE user_id = ?`). -/
def settingsFor (db : Db) (userId : String) : Option SettingsRow :=
  db.user_settings.find? (fun r => r.user_id == userId)

/-- Embeds `modelOverride || settings?.preferred_model || 'auto'`. -/
def preferredModelOf (override : Option String) (st : Option SettingsRow) : String :=
  jsOrStr override (jsOrStr (st.bind SettingsRow.preferred_model) "auto")

/-! Memory injection (`chatWithGemini`, step 3b). -/

/-- SQL `column = ?` under three-valued logic: NULL on either side is not
equal to anything. -/
def sqlEqOpt (a b : Option String) : Bool :=
  match a, b with
  | some x, some y => x == y
  | _, _ => false

/-- The WHERE clause of the memory query, with SQL NULL semantics: the
bound parameters are `userId`, `platform` (a string), `senderId` (possibly
NULL) and `share` (the `? = 1` flag). -/
def memoryPred (userId platform : String) (senderId : Option String) (share : Bool)
    (m : MemRow) : Bool :=
  m.user_id == userId &&
    (m.memory_type == some "core" || m.memory_type == none ||
      (m.memory_type == some "active_learning" &&
        ((m.platform == some platform &&
            (sqlEqOpt m.external_id senderId || m.external_id == none)) ||
          (share && m.platform == none))))

def createdDescRel (a b : MemRow) : Prop := b.created_at ≤ a.created_at

instance : DecidableRel createdDescRel := fun a b => by unfold createdDescRel; infer_instance

/-- The memory query: WHERE filter, ORDER BY created_at DESC, LIMIT 20. -/
def userMemoriesQuery (mems : List MemRow) (userId platform : String)
    (senderId : Option String) (share : Bool) : List MemRow :=
  (List.insertionSort createdDescRel
    (mems.filter (memoryPred userId platform senderId share))).take 20

/-- Sharing flag used for memory injection: false on playground/web, else
the integration row must have `share_active_memory = 1`. -/
def shareActiveForInjection (db : Db) (userId platform : String) : Bool :=
  if platform == "playground" || platform == "web" then false
  else
    match db.platform_integrations.find? (fun r => r.user_id == userId && r.platform == platform) with
    | some r => r.share_active_memory == some 1
    | none => false

/-- Sharing flag recomputed inside the `saveMemory` handler: this one only
special-cases `web` (not playground), as in the source. -/
def shareActiveForSave (db : Db) (userId platform : String) : Bool :=
  if platform == "web" then false
  else
    match db.platform_integrations.find? (fun r => r.user_id == userId && r.platform == platform) with
    | some r => r.share_active_memory == some 1
    | none => false

/-! Tool registry: the function declarations built for a turn. -/

/-- Parameter schema a tool is declared with: the generic single-string
`payload` object, or the stored schema given by its key set. -/
inductive DeclSchema
  | genericPayload
  | custom (keys : List String)
deriving DecidableEq

/-- Whether a declaration is a built-in tool or a tenant webhook tool. -/
inductive DeclKind
  | builtin
  | customWebhook
deriving DecidableEq

/-- One function declaration sent to the provider. -/
structure Decl where
  name : String
  description : String
  kind : DeclKind
  schema : DeclSchema
deriving DecidableEq

/-- Built-in declaration (its long English description is abstracted). -/
def builtinDecl (n : String) : Decl := ⟨n, "", .builtin, .genericPayload⟩

/-- The custom-tools query of the declaration phase:
`SELECT * FROM tools WHERE is_active = 1 AND (is_admin_only = 0 OR user_id = ?)`.
Note the `user_id` parameter only guards admin-only tools. -/
def customToolsFor (tools : List ToolRow) (userId : String) : List ToolRow :=
  tools.filter (fun t => t.is_active == 1 && (t.is_admin_only == 0 || t.user_id == userId))

/-- Schema a custom tool is declared with: its stored `parameter_schema`
when it parses to a non-empty object, else the generic payload schema. -/
def declSchemaFor (t : ToolRow) : DeclSchema :=
  match t.parameter_schema with
  | none => .genericPayload
  | some .malformed => .genericPayload
  | some (.parsed keys) => if keys.isEmpty then .genericPayload else .custom keys

/-- Embeds `settings?.enable_x !== 0`: enabled unless the row exists and
the column holds exactly 0. -/
def flagEnabled (st : Option SettingsRow) (f : SettingsRow → Option Int) : Bool :=
  match st with
  | none => true
  | some row => !(f row == some 0)

/-- Admin resolution: playground/web callers are admins; otherwise a
truthy sender id is looked up in `platform_admins`. -/
def isAdminFor (db : Db) (userId platform : String) (senderId : Option String) : Bool :=
  if platform == "playground" || platform == "web" then true
  else
    match senderId with
    | some s =>
      if s == "" then false
      else db.platform_admins.any fun a =>
        a.user_id == userId && a.platform == platform && a.platform_user_id == s
    | none => false

/-- The declaration list of a turn, in source push order: gated built-ins,
admin-gated installTool, always-on deleteTool/sendMedia, the tenant query
custom tools, then always-on saveMemory/manageTools. -/
def buildDeclarations (db : Db) (st : Option SettingsRow) (userId : String)
    (isAdmin : Bool) : List Decl :=
  (if flagEnabled st SettingsRow.enable_web_search then [builtinDecl "webSearch"] else []) ++
  (if flagEnabled st SettingsRow.enable_weather then [builtinDecl "getWeather"] else []) ++
  (if flagEnabled st SettingsRow.enable_calculator then [builtinDecl "calculator"] else []) ++
  (if flagEnabled st SettingsRow.enable_scraper then [builtinDecl "scrapeUrl"] else []) ++
  (if isAdmin then [builtinDecl "installTool"] else []) ++
  (if flagEnabled st SettingsRow.enable_github then [builtinDecl "githubRepo"] else []) ++
  (if flagEnabled st SettingsRow.enable_currency then [builtinDecl "currencyConverter"] else []) ++
  [builtinDecl "deleteTool", builtinDecl "sendMedia"] ++
  (customToolsFor db.tools userId).map (fun t => ⟨t.name, t.description, .customWebhook, declSchemaFor t⟩) ++
  [builtinDecl "saveMemory", builtinDecl "manageTools"]

/-! Tool executor and conversation engine. -/

/-- Arguments object of a model function call: the fields the handlers
read.  An absent field is `none`, matching JS `undefined`. -/
structure CallArgs where
  expression : Option String := none
  content : Option String := none
  name : Option String := none
  endpoint : Option String := none
  description : Option String := none
  id : Option String := none
  action : Option String := none
  method : Option String := none
  apiKey : Option String := none
  authType : Option String := none
  authParamName : Option String := none
  url : Option String := none
  mediaType : Option String := none
  schemaKeys : Option (List String) := none
deriving DecidableEq

/-- A function call found in a provider response. -/
structure FnCall where
  name : String
  args : CallArgs
deriving DecidableEq

/-- A provider response: its text and the function calls it contains. -/
structure GeminiResponse where
  text : String
  calls : List FnCall
deriving DecidableEq

/-- Outcome of one provider `sendMessage`: a response, or a thrown error. -/
inductive CallResult
  | ok (r : GeminiResponse)
  | err (msg : String)
deriving DecidableEq

/-- Provider oracle: the outcome of the first call and of the follow-up
call of the n-th candidate attempt of the turn. -/
structure Oracle where
  first : Nat → CallResult
  follow : Nat → CallResult

/-- Outcome of the JS `eval` on an allow-listed expression. -/
inductive EvalOutcome
  | ok (v : String)
  | threw (msg : String)
deriving DecidableEq

/-- Per-turn inputs (metadata after the destructuring defaults) plus
oracles for ambient effects: the clock, `eval`, and the results of
network-backed tools. -/
structure TurnEnv where
  userId : String
  chatId : String
  prompt : String
  platform : String
  chatType : String
  groupId : Option String
  senderId : Option String
  senderName : Option String
  modelOverride : Option String
  now : Nat
  evalFn : String → EvalOutcome
  ext : FnCall → String

/-- One character of the calculator allow-list `[0-9+\-*/().\s]`. -/
def calcAllowedChar (c : Char) : Bool :=
  c.isDigit || c == '+' || c == '-' || c == '*' || c == '/' || c == '(' || c == ')' ||
    c == '.' || jsWhitespace c

/-- The calculator allow-list test `/^[0-9+\-*/().\s]*$/.test(expression)`. -/
def calcAllowed (s : String) : Bool := s.toList.all calcAllowedChar

/-- The calculator handler body: allow-list test, then `eval` inside the
try/catch (a thrown message becomes the result text). -/
def calculatorTool (evalFn : String → EvalOutcome) (expr : String) : String :=
  if calcAllowed expr then
    match evalFn expr with
    | .ok v => v
    | .threw m => m
  else "Invalid characters in expression"

/-- One structured tool result returned to the provider. -/
structure ToolPayload where
  name : String
  content : String
deriving DecidableEq

/-- SQL INSERT into `user_memories`. -/
def insertMemory (db : Db) (row : MemRow) : Db :=
  { db with user_memories := db.user_memories ++ [row] }

/-- SQL INSERT into `tools`. -/
def insertToolRow (db : Db) (row : ToolRow) : Db :=
  { db with tools := db.tools ++ [row] }

/-- The `user_memories` row the `saveMemory` handler inserts for content
`c`: active_learning, global when sharing is on, else scoped to the
current platform and sender. -/
def savedMemRow (db : Db) (env : TurnEnv) (c : String) : MemRow :=
  let share := shareActiveForSave db env.userId env.platform
  { user_id := env.userId, content := c, memory_type := some "active_learning",
    platform := if share then none else some env.platform,
    external_id := if share then none else env.senderId,
    created_at := env.now }

/-- The `tools` row the `installTool` handler inserts when the database
uuid counter stands at `n`: active, not admin-only, with the call's
fields and defaults (`method` POST, empty schema object, null auth). -/
def installedToolRow (n : Nat) (env : TurnEnv) (args : CallArgs) : ToolRow :=
  { id := "uuid-" ++ toString n, name := args.name.getD "", endpoint := args.endpoint.getD "",
    description := args.description.getD "", user_id := env.userId,
    is_active := 1, is_admin_only := 0, method := some (args.method.getD "POST"),
    parameter_schema := some (.parsed (args.schemaKeys.getD [])),
    api_key := args.apiKey, auth_type := args.authType,
    auth_param_name := args.authParamName }

/-- The `tools` row the `manageTools` add action inserts when the database
uuid counter stands at `n`: only id/name/endpoint/description/user_id are
bound; the remaining columns take the db.ts defaults. -/
def managedToolRow (n : Nat) (env : TurnEnv) (args : CallArgs) : ToolRow :=
  { id := "uuid-" ++ toString n, name := args.name.getD "", endpoint := args.endpoint.getD "",
    description := args.description.getD "", user_id := env.userId,
    is_active := 1, is_admin_only := 0, method := some "POST",
    parameter_schema := some (.parsed []), api_key := none, auth_type := none,
    auth_param_name := none }

/-- JS truthiness of a nullable string. -/
def truthyStr : Option String → Bool
  | some s => !(s == "")
  | none => false

/-- Executes one model tool call, producing the updated database and the
structured result payload.  Dispatch follows the source order: built-ins,
then the custom tools captured at turn start, then manageTools and
saveMemory, else the unknown-tool result.  Network-backed handlers return
`env.ext` results and leave the database unchanged.  Result strings the
source builds as JSON or quoted text are abstracted to fixed phrases (no
claim depends on them); an absent `expression` argument is the string
"undefined", as JS coerces it for the regex test. -/
def execCall (db : Db) (env : TurnEnv) (customNames : List String)
    (decls : List Decl) (call : FnCall) : Db × ToolPayload :=
  if call.name == "webSearch" then (db, ⟨call.name, env.ext call⟩)
  else if call.name == "getWeather" then (db, ⟨call.name, env.ext call⟩)
  else if call.name == "calculator" then
    (db, ⟨call.name, calculatorTool env.evalFn (call.args.expression.getD "undefined")⟩)
  else if call.name == "scrapeUrl" then (db, ⟨call.name, env.ext call⟩)
  else if call.name == "githubRepo" then (db, ⟨call.name, env.ext call⟩)
  else if call.name == "currencyConverter" then (db, ⟨call.name, env.ext call⟩)
  else if call.name == "installTool" then
    let p := genId db
    let row : ToolRow :=
      { id := p.1, name := call.args.name.getD "", endpoint := call.args.endpoint.getD "",
        description := call.args.description.getD "", user_id := env.userId,
        is_active := 1, is_admin_only := 0,
        method := some (call.args.method.getD "POST"),
        parameter_schema := some (.parsed (call.args.schemaKeys.getD [])),
        api_key := call.args.apiKey, auth_type := call.args.authType,
        auth_param_name := call.args.authParamName }
    (insertToolRow p.2 row, ⟨"installTool", "Tool installed successfully."⟩)
  else if call.name == "deleteTool" then
    let n := call.args.name.getD ""
    let remaining := db.tools.filter (fun t => !(t.name == n && t.user_id == env.userId))
    ({ db with tools := remaining },
      ⟨"deleteTool",
        if remaining.length < db.tools.length then "Tool deleted successfully."
        else "Tool not found or permission denied."⟩)
  else if call.name == "sendMedia" then
    let u := call.args.url.getD ""
    let finalPath := if u.startsWith "http" then env.ext call else u
    (db, ⟨"sendMedia", "[MEDIA_SEND:" ++ finalPath ++ "|" ++ call.args.mediaType.getD "" ++ "]"⟩)
  else if customNames.contains call.name then (db, ⟨call.name, env.ext call⟩)
  else if call.name == "manageTools" then
    let action := call.args.action.getD ""
    if action == "list" then
      (db, ⟨"manageTools", "Currently active tools:\n" ++
        String.intercalate "\n" (decls.map (fun t => t.name ++ ": " ++ t.description))⟩)
    else if action == "add" then
      if !truthyStr call.args.name || !truthyStr call.args.endpoint then
        (db, ⟨"manageTools", "Error: Name and endpoint are required for adding a tool."⟩)
      else
        let p := genId db
        let row : ToolRow :=
          { id := p.1, name := call.args.name.getD "", endpoint := call.args.endpoint.getD "",
            description := call.args.description.getD "", user_id := env.userId,
            is_active := 1, is_admin_only := 0, method := some "POST",
            parameter_schema := some (.parsed []), api_key := none, auth_type := none,
            auth_param_name := none }
        (insertToolRow p.2 row, ⟨"manageTools", "Tool successfully registered."⟩)
    else if action == "remove" then
      if !truthyStr call.args.id then
        (db, ⟨"manageTools", "Error: ID is required for removing a tool."⟩)
      else
        let i := call.args.id.getD ""
        ({ db with tools := db.tools.filter (fun t => !(t.id == i && t.user_id == env.userId)) },
          ⟨"manageTools", "Tool successfully removed."⟩)
    else (db, ⟨"manageTools", "Unknown action: " ++ action⟩)
  else if call.name == "saveMemory" then
    (insertMemory db (savedMemRow db env (call.args.content.getD "")),
      ⟨"saveMemory", "Memory saved to Active Learning storage."⟩)
  else (db, ⟨call.name, "Unknown tool."⟩)

/-- Executes all tool calls of a response in order (the database effects of
the `Promise.all` over the handlers; result order matches call order). -/
def execCalls (env : TurnEnv) (customNames : List String) (decls : List Decl) :
    Db → List FnCall → Db × List ToolPayload
  | db, [] => (db, [])
  | db, c :: rest =>
    let p := execCall db env customNames decls c
    let q := execCalls env customNames decls p.1 rest
    (q.1, p.2 :: q.2)

/-- Outcome of trying one (key, model) candidate: the try block threw (the
cascade catches it and moves on), or a final text was produced.
`providerCalls` counts the `sendMessage` invocations the attempt made. -/
inductive AttemptOutcome
  | threw (msg : String) (db : Db) (providerCalls : Nat)
  | answered (text : String) (db : Db) (providerCalls : Nat)
deriving DecidableEq

/-- One candidate attempt: first provider call; if it returns function
calls, execute them all and issue exactly one follow-up provider call
whose text (not its possible further calls) becomes the result. -/
def tryCandidate (db : Db) (env : TurnEnv) (customNames : List String) (decls : List Decl)
    (oracle : Oracle) (i : Nat) : AttemptOutcome :=
  match oracle.first i with
  | .err m => .threw m db 1
  | .ok r =>
    if r.calls.isEmpty then .answered r.text db 1
    else
      let db2 := (execCalls env customNames decls db r.calls).1
      match oracle.follow i with
      | .err m => .threw m db2 2
      | .ok r2 => .answered r2.text db2 2

/-- Mutable state of the cascade loops of `chatWithGemini`. -/
structure CascadeState where
  responseText : String
  usedKeyId : String
  usedModelName : String
  lastError : Option String
  attempt : Nat
  providerCalls : Nat
  db : Db
deriving DecidableEq

/-- SQL UPDATE of `last_used_at` after a successful attempt. -/
def updateLastUsed (db : Db) (keyId : String) (now : Nat) : Db :=
  { db with gemini_keys :=
      db.gemini_keys.map fun k =>
        if k.id == keyId then { k with last_used_at := some now } else k }

/-- The inner candidate loop for one key: try models until one attempt does
not throw; a non-throwing attempt stores its text, marks the key/model
used, bumps `last_used_at` and breaks out of the candidate loop. -/
def runKey (env : TurnEnv) (customNames : List String) (decls : List Decl) (oracle : Oracle)
    (k : GKey) : List String → CascadeState → CascadeState
  | [], s => s
  | m :: rest, s =>
    match tryCandidate s.db env customNames decls oracle s.attempt with
    | .threw msg db2 n =>
      runKey env customNames decls oracle k rest
        { s with db := db2, lastError := some msg, attempt := s.attempt + 1,
                 providerCalls := s.providerCalls + n }
    | .answered text db2 n =>
      { s with responseText := text, usedKeyId := k.id, usedModelName := m,
               db := updateLastUsed db2 k.id env.now, attempt := s.attempt + 1,
               providerCalls := s.providerCalls + n }

/-- The outer key loop: run keys in order until one run ends with a
non-empty `responseText` (`if (responseText) break`). -/
def runKeys (env : TurnEnv) (customNames : List String) (decls : List Decl) (oracle : Oracle)
    (preferredModel targetModel : String) : List GKey → CascadeState → CascadeState
  | [], s => s
  | k :: rest, s =>
    let s2 := runKey env customNames decls oracle k (candidatesFor k preferredModel targetModel) s
    if s2.responseText == "" then
      runKeys env customNames decls oracle preferredModel targetModel rest s2
    else s2

/-- Initial cascade state over a database. -/
def initState (db : Db) : CascadeState := ⟨"", "", "", none, 0, 0, db⟩

/-- Names of the custom tools captured at turn start; call dispatch during
execution matches against this captured list. -/
def customNamesOf (db : Db) (userId : String) : List String :=
  (customToolsFor db.tools userId).map ToolRow.name

/-- The cascade state reached after the key loop of a turn. -/
def turnState (db : Db) (env : TurnEnv) (oracle : Oracle) : CascadeState :=
  let st := settingsFor db env.userId
  let preferredModel := preferredModelOf env.modelOverride st
  let decls := buildDeclarations db st env.userId
    (isAdminFor db env.userId env.platform env.senderId)
  let sel := selectKeys (activeKeysFor db env.userId) preferredModel
  runKeys env (customNamesOf db env.userId) decls oracle preferredModel sel.2 sel.1
    (initState db)

/-- Result of a whole turn: a response with the key used, or a thrown
error message. -/
inductive TurnResult
  | ok (response : String) (keyId : String)
  | err (msg : String)
deriving DecidableEq

/-- Appends one `chat_logs` row for the turn. -/
def appendChat (db : Db) (env : TurnEnv) (role content : String)
    (senderName : Option String) : Db :=
  let p := genId db
  { p.2 with chat_logs := p.2.chat_logs ++
      [{ id := p.1, user_id := env.userId, chat_id := env.chatId, platform := env.platform,
         role := role, content := content, chat_type := env.chatType,
         group_id := env.groupId, sender_id := env.senderId, sender_name := senderName }] }

/-- Appends the `bot_logs` audit row for the turn. -/
def insertBotLog (db : Db) (env : TurnEnv) (s : CascadeState) : Db :=
  { db with bot_logs := db.bot_logs ++
      [{ id := "log_" ++ toString env.now, response := s.responseText,
         api_key_used := s.usedKeyId, user_id := env.userId, chat_id := env.chatId,
         model_used := s.usedModelName }] }

/-- Embedding of `chatWithGemini`: key-pool check, cascade, exhaustion
error, the `[NO_REPLY]` sentinel check, then the chat-log rows and the
audit row.  Playground mirror rows (`savePlaygroundMessage`) and the
system-instruction string are not modeled: no claim depends on them. -/
def chatWithGemini (db : Db) (env : TurnEnv) (oracle : Oracle) : TurnResult × Db :=
  if (activeKeysFor db env.userId).isEmpty then
    (.err "No active Gemini API keys found", db)
  else
    let s := turnState db env oracle
    if s.responseText == "" then
      (.err ("All API keys failed. Last error: " ++ s.lastError.getD "null"), s.db)
    else if jsTrim s.responseText == "[NO_REPLY]" then
      (.err "[NO_REPLY]", s.db)
    else
      let db1 := appendChat s.db env "user" env.prompt env.senderName
      let db2 := appendChat db1 env "model" s.responseText none
      (.ok s.responseText s.usedKeyId, insertBotLog db2 env s)

/-- Reply of the `/api/bot/chat` route (index.ts): success JSON, the
ignored status for the NO_REPLY signal, or a 500 with the error message. -/
inductive ApiReply
  | json (response : String) (keyId : String)
  | ignored
  | error500 (msg : String)
deriving DecidableEq

/-- The catch clause of the chat route: an error whose message includes
the sentinel becomes the ignored outcome. -/
def chatHandler (r : TurnResult) : ApiReply :=
  match r with
  | .ok resp k => .json resp k
  | .err m => if containsSub m "[NO_REPLY]" then .ignored else .error500 m

/-! Derived notions used to state the claims. -/

/-- Provider calls made by one candidate attempt. -/
def AttemptOutcome.nCalls : AttemptOutcome → Nat
  | .threw _ _ n => n
  | .answered _ _ n => n

/-- Database state after one candidate attempt. -/
def AttemptOutcome.dbOut : AttemptOutcome → Db
  | .threw _ d _ => d
  | .answered _ d _ => d

/-- Attempt `n` of the turn fails: its first provider call throws, or it
returns tool calls and the follow-up provider call throws. -/
def failsAt (oracle : Oracle) (n : Nat) : Prop :=
  (∃ m, oracle.first n = .err m) ∨
  (∃ r m, oracle.first n = .ok r ∧ r.calls ≠ [] ∧ oracle.follow n = .err m)

/-- Provider error observed at attempt `n`: the message its first call
throws, else the message its follow-up call throws (none when the attempt
yields a text).  Under `failsAt` this is exactly the message the cascade
records as `lastError` at that attempt. -/
def attemptErr (oracle : Oracle) (n : Nat) : Option String :=
  match oracle.first n with
  | .err m => some m
  | .ok _ =>
    match oracle.follow n with
    | .err m => some m
    | .ok _ => none

/-- Database `b` extends `a`: audit and conversation logs and the
integrations table are untouched, and memories are only added. -/
def DbExt (a b : Db) : Prop :=
  b.chat_logs = a.chat_logs ∧ b.bot_logs = a.bot_logs ∧
  b.platform_integrations = a.platform_integrations ∧
  ∀ x ∈ a.user_memories, x ∈ b.user_memories

/-- Modelled from the spec: a credential "advertises M in its
discovered-model list" when M occurs among the discovered model names, in
either stored format.  This is the specification reading of claim C2, to
be compared with the implemented filter `keySupportsPref`. -/
def advertisesModel (k : GKey) (m : String) : Bool :=
  match k.available_models with
  | some (.strs l) => l.contains m
  | some (.objs l) => (l.map MObj.name).contains m
  | _ => false

/-! Concrete fixtures used by counterexamples and witnesses. -/

/-- Credential with the earlier last-used time but lower-scored best model. -/
def cxK1 : GKey :=
  ⟨"k1", "u", "active", some 1, some "gemini-1.5-flash", some (.strs ["gemini-1.5-flash"])⟩

/-- Credential with the later last-used time but higher-scored best model. -/
def cxK2 : GKey :=
  ⟨"k2", "u", "active", some 2, some "gemini-2.5-pro", some (.strs ["gemini-2.5-pro"])⟩

/-- Tenant database with the two credentials above and nothing else. -/
def dbA : Db := ⟨[cxK1, cxK2], [], [], [], [], [], [], [], 0⟩

/-- A private telegram turn for tenant `u` from sender `alice`. -/
def envA : TurnEnv :=
  ⟨"u", "c", "hi", "telegram", "private", none, some "alice", some "Alice", none, 100,
    fun _ => .ok "4", fun _ => "ext"⟩

/-- Oracle whose very first candidate attempt answers with plain text. -/
def oracleAnswer0 : Oracle := ⟨fun _ => .ok ⟨"done", []⟩, fun _ => .err "unused"⟩

/-- Oracle that answers the sentinel text on the first attempt. -/
def oracleNoReply : Oracle := ⟨fun _ => .ok ⟨"[NO_REPLY]", []⟩, fun _ => .err "unused"⟩

/-- Oracle on which every provider call throws. -/
def oracleAllFail : Oracle := ⟨fun _ => .err "boom", fun _ => .err "boom"⟩

/-- A calculator tool call. -/
def callCalc : FnCall := ⟨"calculator", { expression := some "2+2" }⟩

/-- A web-search tool call. -/
def callSearch : FnCall := ⟨"webSearch", { content := none }⟩

/-- A saveMemory tool call. -/
def callSave : FnCall := ⟨"saveMemory", { content := some "likes tea" }⟩

/-- Oracle: first attempt returns a tool call, its follow-up response also
contains a tool call but no text, and the next attempt answers. -/
def oracleFollowCalls : Oracle :=
  ⟨fun n => if n == 0 then .ok ⟨"", [callCalc]⟩ else .ok ⟨"done", []⟩,
   fun _ => .ok ⟨"", [callSearch]⟩⟩

/-- Arguments of an installTool call. -/
def instArgs : CallArgs :=
  { name := some "wk", endpoint := some "https://x.example", description := some "d" }

/-- An installTool call. -/
def callInstall : FnCall := ⟨"installTool", instArgs⟩

/-- Arguments of a manageTools add call. -/
def manArgs : CallArgs :=
  { name := some "mk", endpoint := some "https://y.example", description := some "e",
    action := some "add" }

/-- A manageTools add call. -/
def callManage : FnCall := ⟨"manageTools", manArgs⟩

/-- Oracle: the first attempt returns a tool round that saves a memory,
installs a tool and adds one via manageTools; its follow-up throws, and
every later attempt throws on its first provider call. -/
def oracleSaveThenFail : Oracle :=
  ⟨fun n => if n == 0 then .ok ⟨"", [callSave, callInstall, callManage]⟩ else .err "boom",
   fun _ => .err "quota"⟩

/-- Credential advertising the preferred model, but in the object format. -/
def cxKobj : GKey :=
  ⟨"kp1", "u", "active", some 1, some "gemini-1.5-pro",
    some (.objs [⟨"gemini-1.5-pro", 1000, 100⟩])⟩

/-- Credential not advertising the preferred model (legacy string format). -/
def cxKstr : GKey :=
  ⟨"kp2", "u", "active", some 2, some "gemini-2.5-flash", some (.strs ["gemini-2.5-flash"])⟩

/-- Custom webhook tool owned by tenant B, active and not admin-only. -/
def toolB : ToolRow :=
  ⟨"tB", "webhookB", "https://b.example/hook", "tenant B tool", "B", 1, 0,
    some "POST", none, none, none, none⟩

/-- Custom webhook tool owned by tenant A with a stored schema. -/
def toolS : ToolRow :=
  ⟨"tS", "webhookS", "https://a.example/hook", "tenant A tool", "A", 1, 0,
    some "POST", some (.parsed ["query"]), none, none, none⟩

/-- Database holding tenant B's and tenant A's custom tools. -/
def dbT : Db := ⟨[], [], [], [toolB, toolS], [], [], [], [], 0⟩

/-- Active-learning memory on the right platform with a NULL sender id. -/
def rowNullExt : MemRow := ⟨"u", "platform-global note", some "active_learning", some "telegram", none, 5⟩

/-- Active-learning memory belonging to a different sender. -/
def rowOther : MemRow := ⟨"u", "bobs note", some "active_learning", some "telegram", some "bob", 6⟩

/-- Core memory of the tenant. -/
def rowCore : MemRow := ⟨"u", "core fact", some "core", none, none, 7⟩

/-- Database with the three memories and no integration rows. -/
def dbM : Db := ⟨[], [], [rowNullExt, rowOther, rowCore], [], [], [], [], [], 0⟩

/-! Order bridge: decimal-fraction comparisons against their rational
values. -/

theorem Frac.fle_iff (a b : Frac) : a.fle b = true ↔ a.toRat ≤ b.toRat := by
  simp only [Frac.fle, Frac.toRat, decide_eq_true_eq]
  rw [div_le_div_iff₀ (by positivity) (by positivity)]
  exact ⟨fun h => by exact_mod_cast h, fun h => by exact_mod_cast h⟩

theorem Frac.flt_iff (a b : Frac) : a.flt b = true ↔ a.toRat < b.toRat := by
  simp only [Frac.flt, Frac.toRat, decide_eq_true_eq]
  rw [div_lt_div_iff₀ (by positivity) (by positivity)]
  exact ⟨fun h => by exact_mod_cast h, fun h => by exact_mod_cast h⟩

theorem Frac.addNat_toRat (f : Frac) (k : Nat) : (f.addNat k).toRat = f.toRat + k := by
  simp only [Frac.addNat, Frac.toRat]
  have h : ((10 : ℚ) ^ f.exp) ≠ 0 := by positivity
  field_simp

theorem Frac.fle_total (a b : Frac) : a.fle b = true ∨ b.fle a = true := by
  simp only [Frac.fle, decide_eq_true_eq]
  exact Nat.le_total _ _

theorem Frac.fle_trans {a b c : Frac} (h1 : a.fle b = true) (h2 : b.fle c = true) :
    a.fle c = true := by
  rw [Frac.fle_iff] at h1 h2 ⊢
  exact le_trans h1 h2

/-! Facts about the model scorer used for claim C8. -/

theorem getModelScore_toRat (n : String) :
    (getModelScore n).toRat =
      (versionScore (lowerOf n)).toRat + tierBonus (tierOf (lowerOf n)) + modBonus (lowerOf n) := by
  unfold getModelScore
  rw [Frac.addNat_toRat, Frac.addNat_toRat]

theorem tierOf_no_g3 {l : List Char} (h : containsSeq "gemini-3".toList l = false) :
    tierOf l ≠ .g3flash ∧ tierOf l ≠ .g3 := by
  unfold tierOf
  rw [h]
  simp only [Bool.false_and, Bool.false_eq_true, if_false]
  split_ifs <;> simp

theorem tierBonus_bounds {t : Tier} (h1 : t ≠ .g3flash) (h2 : t ≠ .g3) :
    10 ≤ tierBonus t ∧ tierBonus t ≤ 50 := by
  cases t <;> simp_all [tierBonus]

theorem modBonus_le (l : List Char) : modBonus l ≤ 8 := by
  unfold modBonus
  split_ifs <;> norm_num

/-- Claim C8, counterexample.  The claimed tier hierarchy and version
dominance fail on the `gemini-3` special case: for the names
`gemini-3.0-pro` and `gemini-3.0-flash`, identical except for the tier
keyword, the pro name scores strictly below the flash name (3060 < 5000),
the highest named tier (`ultra`) ties with `pro` instead of beating it,
and a full major-version advantage (`gemini-4.0-pro`, 4040) still scores
below `gemini-3.0-flash` (5000), so version does not dominate tier. -/
theorem getModelScore_claim_counterexample :
    (getModelScore "gemini-3.0-pro").flt (getModelScore "gemini-3.0-flash") = true ∧
    (getModelScore "gemini-3.0-flash").flt (getModelScore "gemini-3.0-pro") = false ∧
    (getModelScore "gemini-3.0-ultra").flt (getModelScore "gemini-3.0-pro") = false ∧
    (getModelScore "gemini-3.0-ultra") = (getModelScore "gemini-3.0-pro") ∧
    (getModelScore "gemini-4.0-pro").flt (getModelScore "gemini-3.0-flash") = true := by
  decide

/-- Claim C8 (amended).  `getModelScore` is a pure total function.  Away
from the `gemini-3` special case the tier hierarchy holds: with equal
version parts and equal tag modifiers, an `ultra` name scores above a
`pro` name, a `pro` name above a `flash` or keyword-free (standard) name,
and those above a `nano` name.  Version dominance likewise holds away
from the special case: when neither name contains `gemini-3`, a version
part larger by at least 100 (that is, by at least 0.1 before the 1000
multiplier) forces a strictly larger score regardless of tiers and tags. -/
theorem getModelScore_hierarchy :
    (∀ n1 n2 : String,
      versionScore (lowerOf n1) = versionScore (lowerOf n2) →
      modBonus (lowerOf n1) = modBonus (lowerOf n2) →
      ((tierOf (lowerOf n1) = .ultra ∧ tierOf (lowerOf n2) = .pro) ∨
        (tierOf (lowerOf n1) = .pro ∧
          (tierOf (lowerOf n2) = .flash ∨ tierOf (lowerOf n2) = .standard)) ∨
        ((tierOf (lowerOf n1) = .flash ∨ tierOf (lowerOf n1) = .standard) ∧
          tierOf (lowerOf n2) = .nano)) →
      (getModelScore n2).flt (getModelScore n1) = true) ∧
    (∀ n1 n2 : String,
      containsSeq "gemini-3".toList (lowerOf n1) = false →
      containsSeq "gemini-3".toList (lowerOf n2) = false →
      ((versionScore (lowerOf n2)).addNat 100).fle (versionScore (lowerOf n1)) = true →
      (getModelScore n2).flt (getModelScore n1) = true) := by
  constructor
  · intro n1 n2 hv hm htier
    rw [Frac.flt_iff, getModelScore_toRat, getModelScore_toRat, hv, hm]
    have hb : tierBonus (tierOf (lowerOf n2)) < tierBonus (tierOf (lowerOf n1)) := by
      rcases htier with ⟨h1, h2⟩ | ⟨h1, h2 | h2⟩ | ⟨h1 | h1, h2⟩ <;>
        rw [h1, h2] <;> norm_num [tierBonus]
    have hbq : (tierBonus (tierOf (lowerOf n2)) : ℚ) < tierBonus (tierOf (lowerOf n1)) := by
      exact_mod_cast hb
    linarith
  · intro n1 n2 h1 h2 hv
    rw [Frac.flt_iff, getModelScore_toRat, getModelScore_toRat]
    have hv' : (versionScore (lowerOf n2)).toRat + 100 ≤ (versionScore (lowerOf n1)).toRat := by
      have h := (Frac.fle_iff _ _).mp hv
      rw [Frac.addNat_toRat] at h
      exact_mod_cast h
    have t1 := tierBonus_bounds (tierOf_no_g3 h1).1 (tierOf_no_g3 h1).2
    have t2 := tierBonus_bounds (tierOf_no_g3 h2).1 (tierOf_no_g3 h2).2
    have m1 : modBonus (lowerOf n1) ≤ 8 := modBonus_le _
    have m2 : modBonus (lowerOf n2) ≤ 8 := modBonus_le _
    have q1 : (10 : ℚ) ≤ tierBonus (tierOf (lowerOf n1)) := by exact_mod_cast t1.1
    have q2 : (tierBonus (tierOf (lowerOf n2)) : ℚ) ≤ 50 := by exact_mod_cast t2.2
    have q3 : (modBonus (lowerOf n2) : ℚ) ≤ 8 := by exact_mod_cast m2
    have q4 : (0 : ℚ) ≤ modBonus (lowerOf n1) := by positivity
    linarith

/-- Witness for the amended C8 theorem: `gemini-1.5-ultra` beats
`gemini-1.5-pro`, and `gemini-2.5-nano` beats `gemini-2.4-ultra`. -/
theorem getModelScore_hierarchy_witness :
    (getModelScore "gemini-1.5-pro").flt (getModelScore "gemini-1.5-ultra") = true ∧
    (getModelScore "gemini-2.4-ultra").flt (getModelScore "gemini-2.5-nano") = true :=
  ⟨getModelScore_hierarchy.1 "gemini-1.5-ultra" "gemini-1.5-pro" (by decide) (by decide)
      (Or.inl ⟨by decide, by decide⟩),
    getModelScore_hierarchy.2 "gemini-2.5-nano" "gemini-2.4-ultra" (by decide) (by decide)
      (by decide)⟩

/-! Credential ordering (claim C1). -/

theorem pairwise_of_all {α : Type} {R : α → α → Prop} (h : ∀ a b, R a b) :
    ∀ l : List α, l.Pairwise R
  | [] => List.Pairwise.nil
  | x :: xs => List.Pairwise.cons (fun y _ => h x y) (pairwise_of_all h xs)

theorem plan_pairwise (pref tgt : String) :
    ∀ ord : List GKey, List.Pairwise scoreDescRel ord →
      List.Pairwise (fun p q : GKey × String => p.1 = q.1 ∨ scoreDescRel p.1 q.1)
        (ord.flatMap fun k => (candidatesFor k pref tgt).map fun m => (k, m)) := by
  intro ord
  induction ord with
  | nil => intro _; simp
  | cons k rest ih =>
    intro hp
    rw [List.flatMap_cons]
    rw [List.pairwise_append]
    obtain ⟨hhead, hrest⟩ := List.pairwise_cons.mp hp
    refine ⟨?_, ih hrest, ?_⟩
    · exact List.pairwise_map.mpr (pairwise_of_all (fun a b => Or.inl rfl) _)
    · intro a ha b hb
      obtain ⟨m, _, rfl⟩ := List.mem_map.mp ha
      obtain ⟨k2, hk2, hb2⟩ := List.mem_flatMap.mp hb
      obtain ⟨m2, _, rfl⟩ := List.mem_map.mp hb2
      exact Or.inr (hhead k2 hk2)

/-- Claim C1 (amended).  With no explicit model override and an `auto`
preferred model, the engine is in automatic mode and the cascade does NOT
follow ascending last-used order: the attempted key order is a
permutation of the loaded keys sorted by the Model Scorer value of the
cached best model, descending (stable over the ascending last-used load
order), and in the flattened cascade every model of an earlier credential
precedes every model of a later one, earlier credentials scoring at least
as high. -/
theorem auto_mode_credential_order (keys : List GKey) (ov : Option String)
    (st : Option SettingsRow) (h : preferredModelOf ov st = "auto") :
    (selectKeys keys (preferredModelOf ov st)).2 = "auto" ∧
    (selectKeys keys (preferredModelOf ov st)).1 = autoSortKeys keys ∧
    (autoSortKeys keys).Perm keys ∧
    List.Pairwise (fun p q : GKey × String => p.1 = q.1 ∨ scoreDescRel p.1 q.1)
      (cascadePlan keys (preferredModelOf ov st)) := by
  haveI : IsTotal GKey scoreDescRel := ⟨fun a b => Frac.fle_total _ _⟩
  haveI : IsTrans GKey scoreDescRel := ⟨fun _ _ _ hab hbc => Frac.fle_trans hbc hab⟩
  rw [h]
  refine ⟨by simp [selectKeys], by simp [selectKeys], List.perm_insertionSort _ _, ?_⟩
  unfold cascadePlan
  simp only [selectKeys, beq_self_eq_true, if_pos]
  exact plan_pairwise _ _ _ (List.sorted_insertionSort scoreDescRel keys)

/-- Witness for the amended C1 theorem at the two-credential fixture. -/
theorem auto_mode_credential_order_witness :
    (selectKeys [cxK1, cxK2] (preferredModelOf none none)).2 = "auto" ∧
    (selectKeys [cxK1, cxK2] (preferredModelOf none none)).1 = autoSortKeys [cxK1, cxK2] ∧
    (autoSortKeys [cxK1, cxK2]).Perm [cxK1, cxK2] ∧
    List.Pairwise (fun p q : GKey × String => p.1 = q.1 ∨ scoreDescRel p.1 q.1)
      (cascadePlan [cxK1, cxK2] (preferredModelOf none none)) :=
  auto_mode_credential_order [cxK1, cxK2] none none (by decide)

/-- Claim C1, counterexample.  Tenant `u` has two active credentials,
`k1` last used at time 1 and `k2` at time 2, with no model override and
no preferred model; the claim demands every model of `k1` before any
model of `k2`, but in automatic mode the cascade attempts `k2` (whose
cached best model scores higher) first, and the engine indeed answers on
`k2` in the very first attempt. -/
theorem credential_order_counterexample :
    (activeKeysFor dbA "u").map GKey.id = ["k1", "k2"] ∧
    cxK1.last_used_at = some 1 ∧ cxK2.last_used_at = some 2 ∧
    preferredModelOf none (settingsFor dbA "u") = "auto" ∧
    (cascadePlan (activeKeysFor dbA "u") (preferredModelOf none (settingsFor dbA "u"))).map
        (fun p => p.1.id) = ["k2", "k1"] ∧
    (turnState dbA envA oracleAnswer0).usedKeyId = "k2" := by
  decide

/-- Claim C2, code evaluation at the failing input.  Credential `kp1` is
the only one advertising `gemini-1.5-pro` in its discovered-model list —
but in the object format that the discovery service writes; the
preferred-model filter tests `models.includes(M)` on the parsed array, so
it never matches an object entry.  The engine therefore falls back to
automatic mode with BOTH credentials, attempts `kp2` first, and the first
candidate on it is not `gemini-1.5-pro`: the claimed behavior fails even
though exactly one credential advertises M. -/
theorem preferred_model_filter_divergence :
    advertisesModel cxKobj "gemini-1.5-pro" = true ∧
    advertisesModel cxKstr "gemini-1.5-pro" = false ∧
    keySupportsPref cxKobj "gemini-1.5-pro" = false ∧
    (selectKeys [cxKobj, cxKstr] "gemini-1.5-pro").2 = "auto" ∧
    (selectKeys [cxKobj, cxKstr] "gemini-1.5-pro").1.map GKey.id = ["kp2", "kp1"] ∧
    (cascadePlan [cxKobj, cxKstr] "gemini-1.5-pro").head?.map (fun p => p.1.id) =
      some "kp2" := by
  decide

/-- Claim C3, code evaluation at the failing input.  The declaration-time
tools query filters only on `is_active = 1 AND (is_admin_only = 0 OR
user_id = ?)`, so tenant B's active non-admin tool is declared on tenant
A's turn, contradicting the tenant-ownership part of the claim.  The
schema part behaves as claimed: a stored non-empty schema is declared
as-is, an absent one becomes the generic payload schema. -/
theorem custom_tools_cross_tenant_divergence :
    toolB.user_id = "B" ∧ toolB.is_active = 1 ∧ toolB.is_admin_only = 0 ∧
    customToolsFor dbT.tools "A" = [toolB, toolS] ∧
    (buildDeclarations dbT none "A" false).filter (fun d => d.kind == DeclKind.customWebhook) =
      [⟨"webhookB", "tenant B tool", .customWebhook, .genericPayload⟩,
        ⟨"webhookS", "tenant A tool", .customWebhook, .custom ["query"]⟩] := by
  decide

/-! Memory scoping (claim C4). -/

theorem sqlEqOpt_eq {a b : Option String} (h : sqlEqOpt a b = true) : a = b ∧ b ≠ none := by
  cases a with
  | none => simp [sqlEqOpt] at h
  | some x =>
    cases b with
    | none => simp [sqlEqOpt] at h
    | some y =>
      simp only [sqlEqOpt, beq_iff_eq] at h
      exact ⟨by rw [h], by simp⟩

/-- Claim C4, counterexample.  On a non-shared platform, the query also
returns active-learning rows whose external sender id is NULL (platform
global), not only rows whose sender id equals the current sender:
`rowNullExt` is returned for sender `alice` although it is an
active-learning memory whose external id is neither `alice` nor a core
kind. -/
theorem memory_scope_counterexample :
    shareActiveForInjection dbM "u" "telegram" = false ∧
    rowNullExt ∈ userMemoriesQuery dbM.user_memories "u" "telegram" (some "alice")
        (shareActiveForInjection dbM "u" "telegram") ∧
    rowNullExt.memory_type = some "active_learning" ∧
    rowNullExt.platform = some "telegram" ∧
    rowNullExt.external_id ≠ some "alice" ∧
    rowNullExt.memory_type ≠ some "core" := by
  decide

/-- Claim C4 (amended).  On a private conversation of a platform without
sharing, every returned row belongs to the tenant and is a core (or
legacy NULL-kind) memory, or an active-learning memory of the current
platform whose external id is the current sender OR NULL; in particular
no returned active-learning row carries a non-null sender id different
from the current sender. -/
theorem memory_scope_amended (db : Db) (userId platform : String) (senderId : Option String)
    (hs : shareActiveForInjection db userId platform = false) :
    ∀ r ∈ userMemoriesQuery db.user_memories userId platform senderId
        (shareActiveForInjection db userId platform),
      r.user_id = userId ∧
      (r.memory_type = some "core" ∨ r.memory_type = none ∨
        (r.memory_type = some "active_learning" ∧ r.platform = some platform ∧
          (r.external_id = none ∨ (senderId ≠ none ∧ r.external_id = senderId)))) ∧
      (∀ s : String, r.memory_type = some "active_learning" → r.external_id = some s →
        senderId = some s) := by
  intro r hr
  rw [hs] at hr
  have h2 := List.take_subset 20 _ hr
  have h1 : r ∈ db.user_memories.filter (memoryPred userId platform senderId false) :=
    (List.perm_insertionSort createdDescRel _).mem_iff.mp h2
  obtain ⟨_, hp⟩ := List.mem_filter.mp h1
  unfold memoryPred at hp
  simp only [Bool.and_eq_true, Bool.or_eq_true, beq_iff_eq, Bool.false_and, false_or] at hp
  obtain ⟨hu, hrest⟩ := hp
  refine ⟨hu, ?_, ?_⟩
  · rcases hrest with (hc | hn) | ⟨hal, hor⟩
    · exact Or.inl hc
    · exact Or.inr (Or.inl hn)
    · rcases hor with ⟨hplat, hext⟩ | hfalse
      · refine Or.inr (Or.inr ⟨hal, hplat, ?_⟩)
        rcases hext with hext | hnone
        · obtain ⟨heq, hne⟩ := sqlEqOpt_eq hext
          exact Or.inr ⟨hne, heq⟩
        · exact Or.inl hnone
      · exact absurd hfalse (by simp)
  · intro s hal2 hexts
    rcases hrest with (hc | hn) | ⟨_, hor⟩
    · rw [hal2] at hc
      exact absurd hc (by simp)
    · rw [hal2] at hn
      exact absurd hn (by simp)
    · rcases hor with ⟨_, hext⟩ | hfalse
      · rcases hext with hext | hnone
        · obtain ⟨heq, _⟩ := sqlEqOpt_eq hext
          rw [← heq]
          exact hexts
        · rw [hexts] at hnone
          exact absurd hnone (by simp)
      · exact absurd hfalse (by simp)

/-- Witness for the amended C4 theorem: the core memory returned for
sender `alice` on the non-shared telegram platform satisfies the scoping
property. -/
theorem memory_scope_amended_witness :
    rowCore.user_id = "u" ∧
    (rowCore.memory_type = some "core" ∨ rowCore.memory_type = none ∨
      (rowCore.memory_type = some "active_learning" ∧ rowCore.platform = some "telegram" ∧
        (rowCore.external_id = none ∨
          (some "alice" ≠ none ∧ rowCore.external_id = some "alice")))) :=
  have h := memory_scope_amended dbM "u" "telegram" (some "alice") (by decide) rowCore
    (by decide)
  ⟨h.1, h.2.1⟩

/-- Claim C9.  An expression with any character outside the allow-list of
digits, `+ - * / ( ) .` and whitespace yields exactly the text error
"Invalid characters in expression"; the result does not depend on the
evaluator, so the expression is never passed to `eval` (evaluation is
attempted only for allow-listed expressions); and the calculator handler
always produces a structured tool payload while leaving the database
unchanged, so a calculator failure never aborts the turn. -/
theorem calculator_allowlist (expr : String) (h : calcAllowed expr = false) :
    (∀ f, calculatorTool f expr = "Invalid characters in expression") ∧
    (∀ f g, calculatorTool f expr = calculatorTool g expr) ∧
    (∀ (db : Db) (env : TurnEnv) (cn : List String) (dl : List Decl) (args : CallArgs),
      args.expression = some expr →
      execCall db env cn dl ⟨"calculator", args⟩ =
        (db, ⟨"calculator", "Invalid characters in expression"⟩)) := by
  have hbase : ∀ f, calculatorTool f expr = "Invalid characters in expression" := by
    intro f
    unfold calculatorTool
    rw [h]
    simp
  refine ⟨hbase, fun f g => by rw [hbase f, hbase g], ?_⟩
  intro db env cn dl args hargs
  simp [execCall, hargs, hbase]

/-- Witness for the C9 theorem at the expression `2+2a`. -/
theorem calculator_allowlist_witness :
    calcAllowed "2+2a" = false ∧
    calculatorTool (fun _ => EvalOutcome.ok "unused") "2+2a" =
      "Invalid characters in expression" :=
  ⟨by decide, (calculator_allowlist "2+2a" (by decide)).1 _⟩

/-! Tool round-trip protocol (claim C5). -/

/-- Claim C5, counterexample.  A turn in which the first provider
response contains a tool call makes THREE provider calls, not two: the
follow-up response contains a tool call and no text, which the cascade
treats as an unusable answer, so it rotates to the next credential and
issues a further provider call in the same turn — refuting the claim
that no further provider call ever happens. -/
theorem tool_roundtrip_counterexample :
    oracleFollowCalls.first 0 = .ok ⟨"", [callCalc]⟩ ∧
    oracleFollowCalls.follow 0 = .ok ⟨"", [callSearch]⟩ ∧
    (turnState dbA envA oracleFollowCalls).providerCalls = 3 ∧
    (turnState dbA envA oracleFollowCalls).responseText = "done" := by
  decide

/-- Claim C5 (amended).  Within one candidate attempt whose first
provider response contains tool calls, the engine issues exactly one
follow-up provider call (two calls in total for the attempt), and only
the first response's tool calls are ever executed — the follow-up
response's own tool calls are not, whatever they are; and once a key run
produces a non-empty text the turn makes no further provider calls.
Further provider calls in the same turn happen only by cascading to a
later candidate when the follow-up throws or yields empty text. -/
theorem tool_roundtrip_amended :
    (∀ (db : Db) (env : TurnEnv) (cn : List String) (dl : List Decl) (oracle : Oracle)
        (i : Nat) (r : GeminiResponse),
      oracle.first i = .ok r → r.calls ≠ [] →
      (tryCandidate db env cn dl oracle i).nCalls = 2 ∧
      (tryCandidate db env cn dl oracle i).dbOut = (execCalls env cn dl db r.calls).1) ∧
    (∀ (env : TurnEnv) (cn : List String) (dl : List Decl) (oracle : Oracle)
        (pref tgt : String) (k : GKey) (rest : List GKey) (s : CascadeState),
      (runKey env cn dl oracle k (candidatesFor k pref tgt) s).responseText ≠ "" →
      runKeys env cn dl oracle pref tgt (k :: rest) s =
        runKey env cn dl oracle k (candidatesFor k pref tgt) s) := by
  constructor
  · intro db env cn dl oracle i r h1 h2
    unfold tryCandidate
    rw [h1]
    have hne : r.calls.isEmpty = false := by
      cases hc : r.calls with
      | nil => exact absurd hc h2
      | cons a as => rfl
    simp only [hne, Bool.false_eq_true, if_false]
    cases hf : oracle.follow i <;> simp [AttemptOutcome.nCalls, AttemptOutcome.dbOut]
  · intro env cn dl oracle pref tgt k rest s hne
    unfold runKeys
    simp [hne]

/-- Witness for the amended C5 theorem on concrete fixtures: a first
response carrying a calculator call leads to exactly two provider calls
for the attempt, and a successful key run stops the key loop. -/
theorem tool_roundtrip_amended_witness :
    (tryCandidate dbA envA [] [] oracleFollowCalls 0).nCalls = 2 ∧
    runKeys envA [] [] oracleAnswer0 "auto" "auto" [cxK1, cxK2] (initState dbA) =
      runKey envA [] [] oracleAnswer0 cxK1 (candidatesFor cxK1 "auto" "auto") (initState dbA) :=
  ⟨(tool_roundtrip_amended.1 dbA envA [] [] oracleFollowCalls 0 ⟨"", [callCalc]⟩
      (by decide) (by decide)).1,
    tool_roundtrip_amended.2 envA [] [] oracleAnswer0 "auto" "auto" cxK1 [cxK2]
      (initState dbA) (by decide)⟩

/-! Sentinel suppression (claim C6). -/

/-- Claim C6.  When the cascade ends with the final model text exactly
`[NO_REPLY]`, the engine throws the sentinel as a control error instead of
returning it, the API route turns that error into the ignored outcome,
and no turn whatsoever can return `[NO_REPLY]` as a successful visible
reply. -/
theorem no_reply_suppressed (db : Db) (env : TurnEnv) (oracle : Oracle)
    (hk : (activeKeysFor db env.userId).isEmpty = false)
    (ht : (turnState db env oracle).responseText = "[NO_REPLY]") :
    (chatWithGemini db env oracle).1 = .err "[NO_REPLY]" ∧
    chatHandler (chatWithGemini db env oracle).1 = .ignored ∧
    (∀ (db2 : Db) (env2 : TurnEnv) (o2 : Oracle) (t k : String),
      (chatWithGemini db2 env2 o2).1 = .ok t k → t ≠ "[NO_REPLY]") := by
  have c1 : (("[NO_REPLY]" : String) == "") = false := by decide
  have c2 : (jsTrim "[NO_REPLY]" == "[NO_REPLY]") = true := by decide
  have hmain : (chatWithGemini db env oracle).1 = .err "[NO_REPLY]" := by
    unfold chatWithGemini
    simp only [hk, Bool.false_eq_true, if_false, ht, c1, c2, if_true]
  refine ⟨hmain, ?_, ?_⟩
  · rw [hmain]
    unfold chatHandler
    have c3 : containsSub "[NO_REPLY]" "[NO_REPLY]" = true := by decide
    simp [c3]
  · intro db2 env2 o2 t k hok
    unfold chatWithGemini at hok
    split at hok
    · exact absurd hok (by simp)
    · dsimp only at hok
      split at hok
      · exact absurd hok (by simp)
      · split at hok
        · exact absurd hok (by simp)
        · intro heq
          rename_i hcond
          obtain ⟨h1, -⟩ := TurnResult.ok.inj hok
          rw [h1, heq] at hcond
          exact hcond c2

/-- Witness for the C6 theorem at a concrete turn whose first attempt
answers the sentinel text. -/
theorem no_reply_suppressed_witness :
    (chatWithGemini dbA envA oracleNoReply).1 = .err "[NO_REPLY]" ∧
    chatHandler (chatWithGemini dbA envA oracleNoReply).1 = .ignored :=
  have h := no_reply_suppressed dbA envA oracleNoReply (by decide) (by decide)
  ⟨h.1, h.2.1⟩

/-! Database-effect lemmas for the cascade (claims C7 and C10). -/

theorem dbExt_refl (a : Db) : DbExt a a := ⟨rfl, rfl, rfl, fun _ hx => hx⟩

theorem dbExt_trans {a b c : Db} (h1 : DbExt a b) (h2 : DbExt b c) : DbExt a c :=
  ⟨h2.1.trans h1.1, h2.2.1.trans h1.2.1, h2.2.2.1.trans h1.2.2.1,
    fun x hx => h2.2.2.2 x (h1.2.2.2 x hx)⟩

theorem execCall_dbExt (db : Db) (env : TurnEnv) (cn : List String) (dl : List Decl)
    (c : FnCall) : DbExt db (execCall db env cn dl c).1 := by
  unfold DbExt execCall
  by_cases h1 : (c.name == "webSearch") = true
  · rw [if_pos h1]
    exact ⟨rfl, rfl, rfl, fun _ hx => hx⟩
  rw [if_neg h1]
  by_cases h2 : (c.name == "getWeather") = true
  · rw [if_pos h2]
    exact ⟨rfl, rfl, rfl, fun _ hx => hx⟩
  rw [if_neg h2]
  by_cases h3 : (c.name == "calculator") = true
  · rw [if_pos h3]
    exact ⟨rfl, rfl, rfl, fun _ hx => hx⟩
  rw [if_neg h3]
  by_cases h4 : (c.name == "scrapeUrl") = true
  · rw [if_pos h4]
    exact ⟨rfl, rfl, rfl, fun _ hx => hx⟩
  rw [if_neg h4]
  by_cases h5 : (c.name == "githubRepo") = true
  · rw [if_pos h5]
    exact ⟨rfl, rfl, rfl, fun _ hx => hx⟩
  rw [if_neg h5]
  by_cases h6 : (c.name == "currencyConverter") = true
  · rw [if_pos h6]
    exact ⟨rfl, rfl, rfl, fun _ hx => hx⟩
  rw [if_neg h6]
  by_cases h7 : (c.name == "installTool") = true
  · rw [if_pos h7]
    exact ⟨rfl, rfl, rfl, fun _ hx => hx⟩
  rw [if_neg h7]
  by_cases h8 : (c.name == "deleteTool") = true
  · rw [if_pos h8]
    exact ⟨rfl, rfl, rfl, fun _ hx => hx⟩
  rw [if_neg h8]
  by_cases h9 : (c.name == "sendMedia") = true
  · rw [if_pos h9]
    exact ⟨rfl, rfl, rfl, fun _ hx => hx⟩
  rw [if_neg h9]
  by_cases h10 : cn.contains c.name = true
  · rw [if_pos h10]
    exact ⟨rfl, rfl, rfl, fun _ hx => hx⟩
  rw [if_neg h10]
  by_cases h11 : (c.name == "manageTools") = true
  · rw [if_pos h11]
    dsimp only
    repeat' split
    all_goals exact ⟨rfl, rfl, rfl, fun _ hx => hx⟩
  rw [if_neg h11]
  by_cases h12 : (c.name == "saveMemory") = true
  · rw [if_pos h12]
    exact ⟨rfl, rfl, rfl, fun _ hx => List.mem_append_left _ hx⟩
  rw [if_neg h12]
  exact ⟨rfl, rfl, rfl, fun _ hx => hx⟩

theorem execCalls_dbExt (env : TurnEnv) (cn : List String) (dl : List Decl)
    (calls : List FnCall) : ∀ db : Db, DbExt db (execCalls env cn dl db calls).1 := by
  induction calls with
  | nil => intro db; exact dbExt_refl db
  | cons c rest ih =>
    intro db
    unfold execCalls
    dsimp only
    exact dbExt_trans (execCall_dbExt db env cn dl c) (ih _)

theorem tryCandidate_dbExt (db : Db) (env : TurnEnv) (cn : List String) (dl : List Decl)
    (oracle : Oracle) (i : Nat) : DbExt db (tryCandidate db env cn dl oracle i).dbOut := by
  unfold tryCandidate
  cases oracle.first i with
  | err m => exact dbExt_refl db
  | ok r =>
    dsimp only
    split
    · exact dbExt_refl db
    · cases oracle.follow i <;> exact execCalls_dbExt env cn dl r.calls db

theorem updateLastUsed_dbExt (db : Db) (k : String) (n : Nat) :
    DbExt db (updateLastUsed db k n) := ⟨rfl, rfl, rfl, fun _ hx => hx⟩

theorem runKey_dbExt (env : TurnEnv) (cn : List String) (dl : List Decl) (oracle : Oracle)
    (k : GKey) (cands : List String) : ∀ s : CascadeState,
    DbExt s.db (runKey env cn dl oracle k cands s).db := by
  induction cands with
  | nil => intro s; exact dbExt_refl s.db
  | cons m rest ih =>
    intro s
    have hstep := tryCandidate_dbExt s.db env cn dl oracle s.attempt
    unfold runKey
    cases hT : tryCandidate s.db env cn dl oracle s.attempt with
    | threw msg db2 n =>
      rw [hT] at hstep
      exact dbExt_trans hstep (ih _)
    | answered text db2 n =>
      rw [hT] at hstep
      exact dbExt_trans hstep (updateLastUsed_dbExt db2 k.id env.now)

theorem runKeys_dbExt (env : TurnEnv) (cn : List String) (dl : List Decl) (oracle : Oracle)
    (pref tgt : String) (keys : List GKey) : ∀ s : CascadeState,
    DbExt s.db (runKeys env cn dl oracle pref tgt keys s).db := by
  induction keys with
  | nil => intro s; exact dbExt_refl s.db
  | cons k rest ih =>
    intro s
    unfold runKeys
    dsimp only
    split
    · exact dbExt_trans (runKey_dbExt env cn dl oracle k _ s) (ih _)
    · exact runKey_dbExt env cn dl oracle k _ s

theorem fallback_ite_ne_nil {α : Type} {l fb : List α} (hfb : fb ≠ []) :
    (if l.isEmpty = true then fb else l) ≠ [] := by
  by_cases h : l.isEmpty = true
  · rw [if_pos h]
    exact hfb
  · rw [if_neg h]
    intro hemp
    rw [hemp] at h
    exact h rfl

theorem candidatesFor_ne_nil (k : GKey) (p t : String) : candidatesFor k p t ≠ [] := by
  unfold candidatesFor
  dsimp only
  exact fallback_ite_ne_nil (by simp)

theorem selectKeys_ne_nil (keys : List GKey) (p : String) (h : keys ≠ []) :
    (selectKeys keys p).1 ≠ [] := by
  have hauto : autoSortKeys keys ≠ [] := by
    intro hemp
    have hl := (List.perm_insertionSort scoreDescRel keys).length_eq
    rw [show autoSortKeys keys = List.insertionSort scoreDescRel keys from rfl] at hemp
    rw [hemp] at hl
    exact h (List.eq_nil_of_length_eq_zero hl.symm)
  unfold selectKeys
  by_cases h1 : (p == "auto") = true
  · rw [if_pos h1]
    exact hauto
  · rw [if_neg h1]
    dsimp only
    by_cases h2 :
        (keys.filter fun k => keySupportsPref k p).length > 0
    · rw [if_pos h2]
      intro hemp
      have hemp2 : (keys.filter fun k => keySupportsPref k p) = [] := hemp
      rw [hemp2] at h2
      simp at h2
    · rw [if_neg h2]
      exact hauto

/-! Failure-run lemmas (claim C7). -/

theorem runKey_fail (env : TurnEnv) (cn : List String) (dl : List Decl) (oracle : Oracle)
    (k : GKey) (cands : List String) : ∀ s : CascadeState,
    (∀ n, s.attempt ≤ n → failsAt oracle n) → s.responseText = "" →
    ((runKey env cn dl oracle k cands s).responseText = "" ∧
      (runKey env cn dl oracle k cands s).attempt = s.attempt + cands.length ∧
      (cands = [] → (runKey env cn dl oracle k cands s).lastError = s.lastError) ∧
      (cands ≠ [] → (runKey env cn dl oracle k cands s).lastError =
        attemptErr oracle (s.attempt + cands.length - 1))) := by
  induction cands with
  | nil =>
    intro s _ hs
    exact ⟨hs, rfl, fun _ => rfl, fun hc => absurd rfl hc⟩
  | cons m rest ih =>
    intro s h hs
    have hstep : ∃ msg db2 n2,
        tryCandidate s.db env cn dl oracle s.attempt = .threw msg db2 n2 ∧
        attemptErr oracle s.attempt = some msg := by
      rcases h s.attempt (le_refl _) with ⟨msg, hf⟩ | ⟨r, msg, hf, hcalls, hfw⟩
      · refine ⟨msg, s.db, 1, by unfold tryCandidate; rw [hf], ?_⟩
        unfold attemptErr
        rw [hf]
      · refine ⟨msg, (execCalls env cn dl s.db r.calls).1, 2, ?_, ?_⟩
        · unfold tryCandidate
          rw [hf]
          have hne : r.calls.isEmpty = false := by
            cases hc : r.calls with
            | nil => exact absurd hc hcalls
            | cons a as => rfl
          simp only [hne, Bool.false_eq_true, if_false]
          rw [hfw]
        · unfold attemptErr
          rw [hf, hfw]
    obtain ⟨msg, db2, n2, hT, hA⟩ := hstep
    unfold runKey
    rw [hT]
    have h2 : ∀ n, s.attempt + 1 ≤ n → failsAt oracle n :=
      fun n hn => h n (le_trans (Nat.le_succ _) hn)
    obtain ⟨r1, r2, r3, r4⟩ := ih
      { s with db := db2, lastError := some msg, attempt := s.attempt + 1,
               providerCalls := s.providerCalls + n2 } h2 hs
    refine ⟨r1, ?_, fun hc => absurd hc (List.cons_ne_nil m rest), fun _ => ?_⟩
    · rw [r2]
      show s.attempt + 1 + rest.length = s.attempt + (rest.length + 1)
      omega
    · by_cases hr0 : rest = []
      · subst hr0
        rw [r3 rfl]
        show some msg = attemptErr oracle (s.attempt + 1 - 1)
        rw [Nat.add_sub_cancel]
        exact hA.symm
      · rw [r4 hr0]
        congr 1
        show s.attempt + 1 + rest.length - 1 = s.attempt + (rest.length + 1) - 1
        omega

theorem runKeys_fail (env : TurnEnv) (cn : List String) (dl : List Decl) (oracle : Oracle)
    (pref tgt : String) (keys : List GKey) : ∀ s : CascadeState,
    (∀ n, s.attempt ≤ n → failsAt oracle n) → s.responseText = "" →
    ((runKeys env cn dl oracle pref tgt keys s).responseText = "" ∧
      (runKeys env cn dl oracle pref tgt keys s).attempt =
        s.attempt + (keys.map fun k => (candidatesFor k pref tgt).length).sum ∧
      (keys ≠ [] → (runKeys env cn dl oracle pref tgt keys s).lastError =
        attemptErr oracle
          (s.attempt + (keys.map fun k => (candidatesFor k pref tgt).length).sum - 1))) := by
  induction keys with
  | nil =>
    intro s _ hs
    exact ⟨hs, rfl, fun hc => absurd rfl hc⟩
  | cons k rest ih =>
    intro s h hs
    obtain ⟨r1, r2, _, r4⟩ :=
      runKey_fail env cn dl oracle k (candidatesFor k pref tgt) s h hs
    unfold runKeys
    dsimp only
    rw [r1]
    simp only [beq_self_eq_true, if_true]
    have h2 : ∀ n, (runKey env cn dl oracle k (candidatesFor k pref tgt) s).attempt ≤ n →
        failsAt oracle n := by
      intro n hn
      rw [r2] at hn
      exact h n (le_trans (Nat.le_add_right _ _) hn)
    obtain ⟨q1, q2, q3⟩ := ih _ h2 r1
    refine ⟨q1, ?_, fun _ => ?_⟩
    · rw [q2, r2]
      show s.attempt + (candidatesFor k pref tgt).length +
          (rest.map fun k2 => (candidatesFor k2 pref tgt).length).sum =
        s.attempt + ((candidatesFor k pref tgt).length +
          (rest.map fun k2 => (candidatesFor k2 pref tgt).length).sum)
      omega
    · by_cases hr0 : rest = []
      · subst hr0
        show (runKey env cn dl oracle k (candidatesFor k pref tgt) s).lastError = _
        rw [r4 (candidatesFor_ne_nil k pref tgt)]
        congr 1
      · rw [q3 hr0, r2]
        congr 1
        show s.attempt + (candidatesFor k pref tgt).length +
            (rest.map fun k2 => (candidatesFor k2 pref tgt).length).sum - 1 =
          s.attempt + ((candidatesFor k pref tgt).length +
            (rest.map fun k2 => (candidatesFor k2 pref tgt).length).sum) - 1
        omega

theorem length_flatMap_eq {α β : Type} (f : α → List β) :
    ∀ l : List α, (l.flatMap f).length = (l.map fun a => (f a).length).sum
  | [] => rfl
  | a :: t => by simp [List.flatMap_cons, length_flatMap_eq f t]

theorem cascadePlan_length (keys : List GKey) (pref : String) :
    (cascadePlan keys pref).length =
      ((selectKeys keys pref).1.map fun k =>
        (candidatesFor k pref (selectKeys keys pref).2).length).sum := by
  unfold cascadePlan
  dsimp only
  rw [length_flatMap_eq]
  simp [List.length_map]

theorem attemptErr_isSome (oracle : Oracle) (n : Nat) (h : failsAt oracle n) :
    ∃ m, attemptErr oracle n = some m := by
  unfold attemptErr
  rcases h with ⟨m, hf⟩ | ⟨r, m, hf, _, hfw⟩
  · rw [hf]
    exact ⟨m, rfl⟩
  · rw [hf, hfw]
    exact ⟨m, rfl⟩

theorem turnState_spec (db : Db) (env : TurnEnv) (oracle : Oracle)
    (hf : ∀ n, failsAt oracle n) (hk : activeKeysFor db env.userId ≠ []) :
    (turnState db env oracle).responseText = "" ∧
    (turnState db env oracle).attempt =
      (cascadePlan (activeKeysFor db env.userId)
        (preferredModelOf env.modelOverride (settingsFor db env.userId))).length ∧
    1 ≤ (cascadePlan (activeKeysFor db env.userId)
        (preferredModelOf env.modelOverride (settingsFor db env.userId))).length ∧
    (turnState db env oracle).lastError =
      attemptErr oracle
        ((cascadePlan (activeKeysFor db env.userId)
          (preferredModelOf env.modelOverride (settingsFor db env.userId))).length - 1) ∧
    DbExt db (turnState db env oracle).db := by
  have hplan := cascadePlan_length (activeKeysFor db env.userId)
    (preferredModelOf env.modelOverride (settingsFor db env.userId))
  have hsel : (selectKeys (activeKeysFor db env.userId)
      (preferredModelOf env.modelOverride (settingsFor db env.userId))).1 ≠ [] :=
    selectKeys_ne_nil _ _ hk
  have hpos : 1 ≤ (cascadePlan (activeKeysFor db env.userId)
      (preferredModelOf env.modelOverride (settingsFor db env.userId))).length := by
    rw [hplan]
    obtain ⟨k1, krest, hkeys⟩ := List.exists_cons_of_ne_nil hsel
    rw [hkeys]
    have hc1 : 1 ≤ (candidatesFor k1
        (preferredModelOf env.modelOverride (settingsFor db env.userId))
        (selectKeys (activeKeysFor db env.userId)
          (preferredModelOf env.modelOverride (settingsFor db env.userId))).2).length :=
      List.length_pos.mpr (candidatesFor_ne_nil _ _ _)
    simp only [List.map_cons, List.sum_cons]
    omega
  unfold turnState
  dsimp only
  obtain ⟨r1, r2, r4⟩ := runKeys_fail env (customNamesOf db env.userId)
    (buildDeclarations db (settingsFor db env.userId) env.userId
      (isAdminFor db env.userId env.platform env.senderId)) oracle
    (preferredModelOf env.modelOverride (settingsFor db env.userId))
    (selectKeys (activeKeysFor db env.userId)
      (preferredModelOf env.modelOverride (settingsFor db env.userId))).2
    (selectKeys (activeKeysFor db env.userId)
      (preferredModelOf env.modelOverride (settingsFor db env.userId))).1
    (initState db) (fun n _ => hf n) rfl
  refine ⟨r1, ?_, hpos, ?_, runKeys_dbExt _ _ _ _ _ _ _ _⟩
  · rw [r2, hplan]
    simp [initState]
  · rw [r4 hsel, hplan]
    congr 1
    simp [initState]

/-- Claim C7.  When every candidate attempt of the turn fails (its first
provider call throws, or its tool round ends in a throwing follow-up
call), the engine fails the whole turn with the exhaustion error whose
message carries the LAST observed underlying provider error: the cascade
makes exactly one attempt per entry of the candidate plan, and the
surfaced message is the provider error observed at the final attempt
(index plan length minus one; `attemptErr` reads an attempt's first-call
error, else its follow-up error).  No bot_logs audit row and no
chat_logs conversation entries are written. -/
theorem credential_exhausted (db : Db) (env : TurnEnv) (oracle : Oracle)
    (hk : activeKeysFor db env.userId ≠ [])
    (hf : ∀ n, failsAt oracle n) :
    ∃ m, (chatWithGemini db env oracle).1 =
        .err ("All API keys failed. Last error: " ++ m) ∧
      attemptErr oracle
        ((cascadePlan (activeKeysFor db env.userId)
          (preferredModelOf env.modelOverride (settingsFor db env.userId))).length - 1) =
        some m ∧
      (turnState db env oracle).attempt =
        (cascadePlan (activeKeysFor db env.userId)
          (preferredModelOf env.modelOverride (settingsFor db env.userId))).length ∧
      1 ≤ (cascadePlan (activeKeysFor db env.userId)
          (preferredModelOf env.modelOverride (settingsFor db env.userId))).length ∧
      (chatWithGemini db env oracle).2.chat_logs = db.chat_logs ∧
      (chatWithGemini db env oracle).2.bot_logs = db.bot_logs := by
  obtain ⟨r1, r2, r3, r4, hext⟩ := turnState_spec db env oracle hf hk
  obtain ⟨m, hm⟩ := attemptErr_isSome oracle _ (hf _)
  have hlast : (turnState db env oracle).lastError = some m := by rw [r4, hm]
  have hk2 : (activeKeysFor db env.userId).isEmpty = false := by
    cases hc : activeKeysFor db env.userId with
    | nil => exact absurd hc hk
    | cons a as => rfl
  have hres : chatWithGemini db env oracle =
      (.err ("All API keys failed. Last error: " ++ m), (turnState db env oracle).db) := by
    unfold chatWithGemini
    simp only [hk2, Bool.false_eq_true, if_false]
    rw [r1, hlast]
    simp
  exact ⟨m, by rw [hres], hm, r2, r3, by rw [hres]; exact hext.1,
    by rw [hres]; exact hext.2.1⟩

/-- Witness for the C7 theorem: both keys fail on every model with the
error `boom`; the turn makes exactly one attempt per plan entry, fails
surfacing the last attempt's error, and writes no rows. -/
theorem credential_exhausted_witness :
    (chatWithGemini dbA envA oracleAllFail).1 =
      .err "All API keys failed. Last error: boom" ∧
    (turnState dbA envA oracleAllFail).attempt =
      (cascadePlan (activeKeysFor dbA envA.userId)
        (preferredModelOf envA.modelOverride (settingsFor dbA envA.userId))).length ∧
    attemptErr oracleAllFail
      ((cascadePlan (activeKeysFor dbA envA.userId)
        (preferredModelOf envA.modelOverride (settingsFor dbA envA.userId))).length - 1) =
      some "boom" ∧
    (chatWithGemini dbA envA oracleAllFail).2.chat_logs = dbA.chat_logs ∧
    (chatWithGemini dbA envA oracleAllFail).2.bot_logs = dbA.bot_logs := by
  obtain ⟨m, h1, h2, h3, h4, h5, h6⟩ :=
    credential_exhausted dbA envA oracleAllFail (by decide) (fun n => Or.inl ⟨"boom", rfl⟩)
  exact ⟨by decide, h3, by decide, h5, h6⟩

/-! Persistence of tool side effects (claim C10). -/

theorem execCall_saveMemory (db : Db) (env : TurnEnv) (cn : List String) (dl : List Decl)
    (args : CallArgs) (hn : cn.contains "saveMemory" = false) :
    (execCall db env cn dl ⟨"saveMemory", args⟩).1 =
      insertMemory db (savedMemRow db env (args.content.getD "")) := by
  have hn2 : "saveMemory" ∉ cn := by simpa using hn
  simp [execCall, hn2]

theorem execCall_installTool (d : Db) (env : TurnEnv) (cn : List String) (dl : List Decl)
    (args : CallArgs) :
    (execCall d env cn dl ⟨"installTool", args⟩).1 =
      insertToolRow { d with uuid_counter := d.uuid_counter + 1 }
        (installedToolRow d.uuid_counter env args) := by
  simp [execCall, insertToolRow, installedToolRow, genId]

theorem execCall_manageAdd (d : Db) (env : TurnEnv) (cn : List String) (dl : List Decl)
    (args : CallArgs) (hn : cn.contains "manageTools" = false)
    (hact : args.action = some "add")
    (hname : truthyStr args.name = true) (hep : truthyStr args.endpoint = true) :
    (execCall d env cn dl ⟨"manageTools", args⟩).1 =
      insertToolRow { d with uuid_counter := d.uuid_counter + 1 }
        (managedToolRow d.uuid_counter env args) := by
  have hn2 : "manageTools" ∉ cn := by simpa using hn
  simp [execCall, hn2, hact, hname, hep, insertToolRow, managedToolRow, genId]

theorem runKey_firstErr (env : TurnEnv) (cn : List String) (dl : List Decl) (oracle : Oracle)
    (k : GKey) (cands : List String) : ∀ s : CascadeState,
    (∀ n, s.attempt ≤ n → ∃ m, oracle.first n = .err m) →
    ((runKey env cn dl oracle k cands s).db = s.db ∧
      (runKey env cn dl oracle k cands s).responseText = s.responseText ∧
      s.attempt ≤ (runKey env cn dl oracle k cands s).attempt) := by
  induction cands with
  | nil =>
    intro s _
    exact ⟨rfl, rfl, le_refl _⟩
  | cons m rest ih =>
    intro s h
    obtain ⟨msg, hfe⟩ := h s.attempt (le_refl _)
    have hT : tryCandidate s.db env cn dl oracle s.attempt = .threw msg s.db 1 := by
      unfold tryCandidate
      rw [hfe]
    unfold runKey
    rw [hT]
    have h2 : ∀ n, s.attempt + 1 ≤ n → ∃ m2, oracle.first n = .err m2 :=
      fun n hn => h n (le_trans (Nat.le_succ _) hn)
    obtain ⟨r1, r2, r3⟩ := ih
      { s with db := s.db, lastError := some msg, attempt := s.attempt + 1,
               providerCalls := s.providerCalls + 1 } h2
    exact ⟨r1, r2, le_trans (Nat.le_succ _) r3⟩

theorem runKeys_firstErr (env : TurnEnv) (cn : List String) (dl : List Decl) (oracle : Oracle)
    (pref tgt : String) (keys : List GKey) : ∀ s : CascadeState,
    (∀ n, s.attempt ≤ n → ∃ m, oracle.first n = .err m) → s.responseText = "" →
    (runKeys env cn dl oracle pref tgt keys s).db = s.db := by
  induction keys with
  | nil =>
    intro s _ _
    rfl
  | cons k rest ih =>
    intro s h hs
    obtain ⟨r1, r2, r3⟩ := runKey_firstErr env cn dl oracle k (candidatesFor k pref tgt) s h
    unfold runKeys
    dsimp only
    have htext : (runKey env cn dl oracle k (candidatesFor k pref tgt) s).responseText = "" :=
      r2.trans hs
    rw [htext]
    simp only [beq_self_eq_true, if_true]
    have h2 : ∀ n, (runKey env cn dl oracle k (candidatesFor k pref tgt) s).attempt ≤ n →
        ∃ m, oracle.first n = .err m := fun n hn => h n (le_trans r3 hn)
    exact (ih _ h2 htext).trans r1

theorem runKeys_firstErr_dbEq (env : TurnEnv) (cn : List String) (dl : List Decl)
    (oracle : Oracle) (pref tgt : String) (k1 : GKey) (krest : List GKey)
    (s : CascadeState) (msg : String) (D : Db) (n2 : Nat)
    (hT : tryCandidate s.db env cn dl oracle s.attempt = .threw msg D n2)
    (hr : ∀ n, s.attempt + 1 ≤ n → ∃ m, oracle.first n = .err m)
    (hs : s.responseText = "") :
    (runKeys env cn dl oracle pref tgt (k1 :: krest) s).db = D := by
  obtain ⟨m1, mrest, hcands⟩ := List.exists_cons_of_ne_nil (candidatesFor_ne_nil k1 pref tgt)
  unfold runKeys
  dsimp only
  rw [hcands]
  unfold runKey
  rw [hT]
  dsimp only
  obtain ⟨r1, r2, r3⟩ := runKey_firstErr env cn dl oracle k1 mrest
    { s with db := D, lastError := some msg, attempt := s.attempt + 1,
             providerCalls := s.providerCalls + n2 } hr
  have htext : (runKey env cn dl oracle k1 mrest
      { s with db := D, lastError := some msg, attempt := s.attempt + 1,
               providerCalls := s.providerCalls + n2 }).responseText = "" := r2.trans hs
  rw [htext]
  simp only [beq_self_eq_true, if_true]
  have h3 : ∀ n, (runKey env cn dl oracle k1 mrest
      { s with db := D, lastError := some msg, attempt := s.attempt + 1,
               providerCalls := s.providerCalls + n2 }).attempt ≤ n →
      ∃ m, oracle.first n = .err m := fun n hn => hr n (le_trans r3 hn)
  exact (runKeys_firstErr env cn dl oracle pref tgt krest _ h3 htext).trans r1

/-- Claim C10.  Durable writes performed by executed tools are committed
during the tool round and are not rolled back when the same candidate's
follow-up provider call fails: when the first attempt's tool round saves
a memory via saveMemory, installs a tool via installTool and registers
one via the manageTools add action, the follow-up call throws, and every
later attempt throws on its first provider call (so no later tool round
runs that could itself touch the rows), the saved memory row and both
inserted tool rows are present in the final database even though the
whole turn fails with the exhaustion error and neither chat_logs nor
bot_logs rows are written. -/
theorem tool_side_effects_persist (db : Db) (env : TurnEnv) (oracle : Oracle)
    (r : GeminiResponse) (argsS argsI argsM : CallArgs) (c m0 : String)
    (hk : activeKeysFor db env.userId ≠ [])
    (h0 : oracle.first 0 = .ok r)
    (hcalls : r.calls =
      [⟨"saveMemory", argsS⟩, ⟨"installTool", argsI⟩, ⟨"manageTools", argsM⟩])
    (hcontent : argsS.content = some c)
    (hshadowS : (customNamesOf db env.userId).contains "saveMemory" = false)
    (hshadowM : (customNamesOf db env.userId).contains "manageTools" = false)
    (hact : argsM.action = some "add")
    (hmname : truthyStr argsM.name = true)
    (hmep : truthyStr argsM.endpoint = true)
    (hfo : oracle.follow 0 = .err m0)
    (hrest : ∀ n, 1 ≤ n → ∃ m, oracle.first n = .err m) :
    savedMemRow db env c ∈ (chatWithGemini db env oracle).2.user_memories ∧
    installedToolRow db.uuid_counter env argsI ∈ (chatWithGemini db env oracle).2.tools ∧
    managedToolRow (db.uuid_counter + 1) env argsM ∈ (chatWithGemini db env oracle).2.tools ∧
    (∃ m, (chatWithGemini db env oracle).1 =
      .err ("All API keys failed. Last error: " ++ m)) ∧
    (chatWithGemini db env oracle).2.chat_logs = db.chat_logs ∧
    (chatWithGemini db env oracle).2.bot_logs = db.bot_logs := by
  have hrcalls : r.calls ≠ [] := by
    rw [hcalls]
    simp
  have hfAll : ∀ n, failsAt oracle n := by
    intro n
    cases n with
    | zero => exact Or.inr ⟨r, m0, h0, hrcalls, hfo⟩
    | succ j =>
      obtain ⟨m, hm⟩ := hrest (j + 1) (Nat.succ_le_succ (Nat.zero_le j))
      exact Or.inl ⟨m, hm⟩
  obtain ⟨resp0, _, _, r4, hext⟩ := turnState_spec db env oracle hfAll hk
  obtain ⟨me, hme⟩ := attemptErr_isSome oracle _ (hfAll _)
  have hlast : (turnState db env oracle).lastError = some me := by rw [r4, hme]
  have hk2 : (activeKeysFor db env.userId).isEmpty = false := by
    cases hc2 : activeKeysFor db env.userId with
    | nil => exact absurd hc2 hk
    | cons a as => rfl
  have hres : chatWithGemini db env oracle =
      (.err ("All API keys failed. Last error: " ++ me), (turnState db env oracle).db) := by
    unfold chatWithGemini
    simp only [hk2, Bool.false_eq_true, if_false]
    rw [resp0, hlast]
    simp
  have hfin : (turnState db env oracle).db =
      (execCalls env (customNamesOf db env.userId)
        (buildDeclarations db (settingsFor db env.userId) env.userId
          (isAdminFor db env.userId env.platform env.senderId)) db r.calls).1 := by
    unfold turnState
    dsimp only
    obtain ⟨k1, krest, hkeys⟩ := List.exists_cons_of_ne_nil (selectKeys_ne_nil
      (activeKeysFor db env.userId)
      (preferredModelOf env.modelOverride (settingsFor db env.userId)) hk)
    rw [hkeys]
    refine runKeys_firstErr_dbEq _ _ _ _ _ _ _ _ _ m0 _ 2 ?_ ?_ rfl
    · unfold tryCandidate
      dsimp only [initState]
      rw [h0]
      have hne : r.calls.isEmpty = false := by
        rw [hcalls]
        rfl
      simp only [hne, Bool.false_eq_true, if_false]
      rw [hfo]
    · exact fun n hn => hrest n hn
  have e1 : (execCall db env (customNamesOf db env.userId)
      (buildDeclarations db (settingsFor db env.userId) env.userId
        (isAdminFor db env.userId env.platform env.senderId)) ⟨"saveMemory", argsS⟩).1 =
      insertMemory db (savedMemRow db env c) := by
    rw [execCall_saveMemory _ _ _ _ _ hshadowS, hcontent]
    rfl
  have hmem3 : savedMemRow db env c ∈
        (execCalls env (customNamesOf db env.userId)
          (buildDeclarations db (settingsFor db env.userId) env.userId
            (isAdminFor db env.userId env.platform env.senderId)) db r.calls).1.user_memories ∧
      installedToolRow db.uuid_counter env argsI ∈
        (execCalls env (customNamesOf db env.userId)
          (buildDeclarations db (settingsFor db env.userId) env.userId
            (isAdminFor db env.userId env.platform env.senderId)) db r.calls).1.tools ∧
      managedToolRow (db.uuid_counter + 1) env argsM ∈
        (execCalls env (customNamesOf db env.userId)
          (buildDeclarations db (settingsFor db env.userId) env.userId
            (isAdminFor db env.userId env.platform env.senderId)) db r.calls).1.tools := by
    rw [hcalls]
    simp only [execCalls]
    rw [e1, execCall_installTool, execCall_manageAdd _ _ _ _ _ hshadowM hact hmname hmep]
    refine ⟨?_, ?_, ?_⟩ <;> simp [insertMemory, insertToolRow, List.mem_append]
  refine ⟨?_, ?_, ?_, ⟨me, by rw [hres]⟩, ?_, ?_⟩
  · rw [hres, hfin]
    exact hmem3.1
  · rw [hres, hfin]
    exact hmem3.2.1
  · rw [hres, hfin]
    exact hmem3.2.2
  · rw [hres]
    exact hext.1
  · rw [hres]
    exact hext.2.1

/-- Witness for the C10 theorem: the saved memory row and both installed
tool rows persist in the final database of a turn that fails with the
exhaustion error and writes no log rows. -/
theorem tool_side_effects_persist_witness :
    (⟨"u", "likes tea", some "active_learning", some "telegram", some "alice", 100⟩ : MemRow) ∈
      (chatWithGemini dbA envA oracleSaveThenFail).2.user_memories ∧
    (⟨"uuid-0", "wk", "https://x.example", "d", "u", 1, 0, some "POST",
        some (.parsed []), none, none, none⟩ : ToolRow) ∈
      (chatWithGemini dbA envA oracleSaveThenFail).2.tools ∧
    (⟨"uuid-1", "mk", "https://y.example", "e", "u", 1, 0, some "POST",
        some (.parsed []), none, none, none⟩ : ToolRow) ∈
      (chatWithGemini dbA envA oracleSaveThenFail).2.tools ∧
    (chatWithGemini dbA envA oracleSaveThenFail).1 =
      .err "All API keys failed. Last error: boom" ∧
    (chatWithGemini dbA envA oracleSaveThenFail).2.chat_logs = dbA.chat_logs ∧
    (chatWithGemini dbA envA oracleSaveThenFail).2.bot_logs = dbA.bot_logs := by
  obtain ⟨h1, h2, h3, _, h5, h6⟩ := tool_side_effects_persist dbA envA oracleSaveThenFail
    ⟨"", [callSave, callInstall, callManage]⟩ { content := some "likes tea" } instArgs manArgs
    "likes tea" "quota" (by decide) rfl rfl rfl (by decide) (by decide) rfl (by decide)
    (by decide) rfl
    (by
      intro n hn
      refine ⟨"boom", ?_⟩
      have hne : (n == 0) = false := by
        cases n with
        | zero => exact absurd hn (by decide)
        | succ j => rfl
      show (if (n == 0) = true then CallResult.ok ⟨"", [callSave, callInstall, callManage]⟩
          else .err "boom") = _
      rw [hne]
      simp)
  have e1 : savedMemRow dbA envA "likes tea" =
      ⟨"u", "likes tea", some "active_learning", some "telegram", some "alice", 100⟩ := by
    decide
  have e2 : installedToolRow dbA.uuid_counter envA instArgs =
      ⟨"uuid-0", "wk", "https://x.example", "d", "u", 1, 0, some "POST",
        some (.parsed []), none, none, none⟩ := by
    decide
  have e3 : managedToolRow (dbA.uuid_counter + 1) envA manArgs =
      ⟨"uuid-1", "mk", "https://y.example", "e", "u", 1, 0, some "POST",
        some (.parsed []), none, none, none⟩ := by
    decide
  exact ⟨e1 ▸ h1, e2 ▸ h2, e3 ▸ h3, by decide, h5, h6⟩

end Bot
